import Mathlib

/-!
# Verification of the compressedPhil SVG binary codec

This development embeds, shallowly, the JavaScript compression and
decompression scripts of the `compressedPhil` repository and proves (or
refutes) the testable properties stated in the repository specification.

JavaScript machine-level facts modelled explicitly:
* bitwise operators (`&`, `|`, `^`, `<<`, `>>`, `>>>`) work on 32-bit
  two's-complement integers (operands pass through ToInt32/ToUint32,
  results of `>>>` are unsigned, shift counts are taken mod 32);
* `Buffer.from([..])` wraps each element to an unsigned byte (mod 256);
* `Math.round x = ⌊x + 1/2⌋` (half-up toward +∞);
* `Number.prototype.toFixed` rounds half away from zero after the sign
  has been split off.
Numeric values flowing through the scripts are modelled as `Int` (integer
positions) and `ℚ` (values produced by divisions); none of the decisive
computations exercise float-specific rounding.
-/

namespace JS

/-- ECMAScript ToUint32 of an integer value. -/
def toUint32 (x : Int) : Nat := (x % (4294967296 : Int)).toNat

/-- ECMAScript ToInt32 of an integer value. -/
def toInt32 (x : Int) : Int :=
  if toUint32 x < 2147483648 then (toUint32 x : Int) else (toUint32 x : Int) - 4294967296

/-- JavaScript `a & b` on integer-valued numbers. -/
def jsAnd (a b : Int) : Int := toInt32 ((toUint32 a) &&& (toUint32 b))

/-- JavaScript `a | b` on integer-valued numbers. -/
def jsOr (a b : Int) : Int := toInt32 ((toUint32 a) ||| (toUint32 b))

/-- JavaScript `a ^ b` on integer-valued numbers. -/
def jsXor (a b : Int) : Int := toInt32 ((toUint32 a) ^^^ (toUint32 b))

/-- JavaScript `a << s` (shift count taken mod 32). -/
def jsShl (a : Int) (s : Nat) : Int := toInt32 ((toUint32 a) <<< (s % 32))

/-- JavaScript `a >>> s`: unsigned right shift, result non-negative. -/
def jsShrU (a : Int) (s : Nat) : Int := ((toUint32 a) >>> (s % 32) : Nat)

/-- JavaScript `a >> s`: sign-propagating right shift (floor division of
the 32-bit value by `2^s`). -/
def jsShrS (a : Int) (s : Nat) : Int := Int.fdiv (toInt32 a) (2 ^ (s % 32))

/-- The byte stored by `Buffer.from` for an integer value (wraps mod 256). -/
def jsToByte (v : Int) : Nat := (v % (256 : Int)).toNat

/-- JavaScript `Math.round` on an exact rational value. -/
def jsRound (q : ℚ) : Int := ⌊q + 1/2⌋

end JS

/-!
## The variable-length integer decoder

`decodeVarInt` below is the decoder that appears, byte for byte identical,
in `src/decompress.js`, `src/workingCompressionScripts/spikes/decompressSpikes.js`,
`src/workingCompressionScripts/Bg/decompressBg.js` and
`src/workingScripts/workingPhilCompress.js`:

```js
function decodeVarInt(buffer, offset) {
  let result = 0; let shift = 0; let currentByte; let bytesRead = 0;
  do {
    if (offset + bytesRead >= buffer.length) throw new Error(...);
    currentByte = buffer[offset + bytesRead];
    result |= (currentByte & 0x7F) << shift;
    shift += 7;
    bytesRead++;
  } while (currentByte & 0x80);
  return { value: result, bytesRead: bytesRead };
}
```

Buffers are byte lists; a thrown `Error` is an `Except.error`.
-/

open JS

/-- The `do`/`while` body of `decodeVarInt` with the mutable state
(`result`, `shift`, `bytesRead`) passed explicitly and the local
`currentByte = buffer[offset + bytesRead]` inlined.  The structural `fuel`
argument strictly bounds the remaining loop passes; `decodeVarIntLoop`
below instantiates it so that the fuel-0 branch coincides with the bounds
check and is in fact never reached (`decodeVarIntLoop_unfold` proves the
fuel-free unfolding). -/
def decodeVarIntLoopF : Nat → List Nat → Nat → Int → Nat → Nat → Except String (Int × Nat)
  | 0, _, _, _, _, _ => .error "Buffer overflow when reading varint"
  | fuel + 1, buffer, offset, result, shift, bytesRead =>
    if buffer.length ≤ offset + bytesRead then
      .error "Buffer overflow when reading varint"
    else if jsAnd (buffer.getD (offset + bytesRead) 0 : Nat) 128 ≠ 0 then
      decodeVarIntLoopF fuel buffer offset
        (jsOr result (jsShl (jsAnd (buffer.getD (offset + bytesRead) 0 : Nat) 127) shift))
        (shift + 7) (bytesRead + 1)
    else
      .ok (jsOr result (jsShl (jsAnd (buffer.getD (offset + bytesRead) 0 : Nat) 127) shift),
        bytesRead + 1)

/-- The varint decode loop (fuel instantiated: one pass per remaining
buffer byte, plus one for the final bounds check). -/
def decodeVarIntLoop (buffer : List Nat) (offset : Nat) (result : Int)
    (shift : Nat) (bytesRead : Nat) : Except String (Int × Nat) :=
  decodeVarIntLoopF (buffer.length + 1 - (offset + bytesRead)) buffer offset result shift bytesRead

/-- The fuel is irrelevant as long as it exceeds the remaining byte count. -/
theorem decodeVarIntLoopF_congr :
    ∀ f1 f2 (buffer : List Nat) (offset : Nat) (r : Int) (s k : Nat),
    buffer.length - (offset + k) < f1 → buffer.length - (offset + k) < f2 →
    decodeVarIntLoopF f1 buffer offset r s k = decodeVarIntLoopF f2 buffer offset r s k := by
  intro f1
  induction f1 with
  | zero => omega
  | succ m ih =>
    intro f2 buffer offset r s k h1 h2
    cases f2 with
    | zero => omega
    | succ m2 =>
      simp only [decodeVarIntLoopF]
      by_cases hc : buffer.length ≤ offset + k
      · simp [hc]
      · rw [if_neg hc, if_neg hc]
        by_cases hbit : jsAnd ((buffer.getD (offset + k) 0 : Nat) : Int) 128 ≠ 0
        · rw [if_pos hbit, if_pos hbit]
          refine ih m2 buffer offset _ (s + 7) (k + 1) ?_ ?_ <;> omega
        · rw [if_neg hbit, if_neg hbit]

/-- The loop satisfies the natural `do`/`while` unfolding equation. -/
theorem decodeVarIntLoop_unfold (buffer : List Nat) (offset : Nat) (r : Int) (s k : Nat) :
    decodeVarIntLoop buffer offset r s k =
      if buffer.length ≤ offset + k then
        .error "Buffer overflow when reading varint"
      else if jsAnd (buffer.getD (offset + k) 0 : Nat) 128 ≠ 0 then
        decodeVarIntLoop buffer offset
          (jsOr r (jsShl (jsAnd (buffer.getD (offset + k) 0 : Nat) 127) s)) (s + 7) (k + 1)
      else
        .ok (jsOr r (jsShl (jsAnd (buffer.getD (offset + k) 0 : Nat) 127) s), k + 1) := by
  unfold decodeVarIntLoop
  by_cases hc : buffer.length ≤ offset + k
  · rw [if_pos hc]
    cases hf : buffer.length + 1 - (offset + k) with
    | zero => simp [decodeVarIntLoopF]
    | succ m => simp [decodeVarIntLoopF, hc]
  · rw [if_neg hc]
    have hf : buffer.length + 1 - (offset + k) = (buffer.length - (offset + k)) + 1 := by
      omega
    rw [hf]
    simp only [decodeVarIntLoopF]
    rw [if_neg hc]
    by_cases hbit : jsAnd ((buffer.getD (offset + k) 0 : Nat) : Int) 128 ≠ 0
    · rw [if_pos hbit, if_pos hbit]
      rw [show buffer.length + 1 - (offset + (k + 1)) = buffer.length - (offset + k) from by
        omega]
    · rw [if_neg hbit, if_neg hbit]

/-- `decodeVarInt(buffer, offset)`, returning `(value, bytesRead)`. -/
def decodeVarInt (buffer : List Nat) (offset : Nat) : Except String (Int × Nat) :=
  decodeVarIntLoop buffer offset 0 0 0

/-- `decodeSignedVarInt` (decompress.js lines 78–86): zigzag decoding
`(value >>> 1) ^ (-(value & 1))` on top of `decodeVarInt`. -/
def decodeSignedVarInt (buffer : List Nat) (offset : Nat) :
    Except String (Int × Nat) := do
  let (value, bytesRead) ← decodeVarInt buffer offset
  let decoded := jsXor (jsShrU value 1) (-(jsAnd value 1))
  return (decoded, bytesRead)

namespace Compress

/-!
## `src/compress.js` (the version-3 path compressor, lines 1–427)
-/

/-- `encodeVarInt`'s `while (num >= 128)` loop, producing the `bytes`
array (elements still JavaScript numbers; `Buffer.from` wraps them to
bytes afterwards).  The structural `fuel` strictly bounds the iteration
count — `num >>>= 7` strictly shrinks the value — and `encodeVarIntBytes`
instantiates it accordingly, so the fuel-0 branch is never reached
(`encodeVarIntBytes_unfold` proves the fuel-free unfolding). -/
def encodeVarIntBytesF : Nat → Int → List Int
  | 0, num => [num]
  | fuel + 1, num =>
    if 128 ≤ num then
      jsOr (jsAnd num 127) 128 :: encodeVarIntBytesF fuel (jsShrU num 7)
    else
      [num]

def encodeVarIntBytes (num : Int) : List Int := encodeVarIntBytesF (num.toNat + 1) num

/-- The shifted value strictly shrinks while the loop guard holds. -/
theorem jsShrU7_toNat_lt (num : Int) (h : 128 ≤ num) :
    (JS.jsShrU num 7).toNat < num.toNat := by
  have h1 : JS.toUint32 num ≤ num.toNat := by
    unfold JS.toUint32
    have hmod : num % (4294967296 : Int) ≤ num := by
      rw [Int.emod_def]
      have : 0 ≤ (4294967296 : Int) * (num / 4294967296) :=
        mul_nonneg (by norm_num) (Int.ediv_nonneg (by omega) (by norm_num))
      omega
    omega
  unfold JS.jsShrU
  have h2 : JS.toUint32 num >>> (7 % 32) = JS.toUint32 num / 128 := by
    rw [Nat.shiftRight_eq_div_pow]
  simp only [h2, Int.toNat_natCast]
  omega

theorem encodeVarIntBytesF_congr : ∀ f1 f2 (num : Int), num.toNat < f1 → num.toNat < f2 →
    encodeVarIntBytesF f1 num = encodeVarIntBytesF f2 num := by
  intro f1
  induction f1 with
  | zero => omega
  | succ m ih =>
    intro f2 num h1 h2
    cases f2 with
    | zero => omega
    | succ m2 =>
      simp only [encodeVarIntBytesF]
      by_cases hc : 128 ≤ num
      · rw [if_pos hc, if_pos hc]
        have := jsShrU7_toNat_lt num hc
        rw [ih m2 (JS.jsShrU num 7) (by omega) (by omega)]
      · rw [if_neg hc, if_neg hc]

/-- The loop satisfies the natural `while` unfolding equation. -/
theorem encodeVarIntBytes_unfold (num : Int) :
    encodeVarIntBytes num =
      if 128 ≤ num then
        jsOr (jsAnd num 127) 128 :: encodeVarIntBytes (jsShrU num 7)
      else
        [num] := by
  by_cases hc : 128 ≤ num
  · rw [if_pos hc]
    show encodeVarIntBytesF (num.toNat + 1) num = _
    simp only [encodeVarIntBytesF]
    rw [if_pos hc]
    congr 1
    have := jsShrU7_toNat_lt num hc
    exact encodeVarIntBytesF_congr num.toNat ((JS.jsShrU num 7).toNat + 1) (JS.jsShrU num 7)
      (by omega) (by omega)
  · rw [if_neg hc]
    show encodeVarIntBytesF (num.toNat + 1) num = _
    simp only [encodeVarIntBytesF]
    rw [if_neg hc]

/-- `encodeVarInt` (compress.js lines 85–95). -/
def encodeVarInt (num : Int) : List Nat :=
  if num = 0 then [0] else (encodeVarIntBytes num).map jsToByte

/-- `encodeSignedVarInt` (compress.js lines 98–101): zigzag
`(num << 1) ^ (num >> 31)` then `encodeVarInt`. -/
def encodeSignedVarInt (num : Int) : List Nat :=
  encodeVarInt (jsXor (jsShl num 1) (jsShrS num 31))

end Compress

/-!
## Arithmetic toolbox for the 32-bit JavaScript operator semantics
-/

theorem toUint32_natCast (n : Nat) (h : n < 4294967296) : JS.toUint32 (n : Int) = n := by
  unfold JS.toUint32
  rw [Int.emod_eq_of_lt (by positivity) (by exact_mod_cast h)]
  exact Int.toNat_natCast n

theorem toInt32_natCast (n : Nat) (h : n < 2147483648) : JS.toInt32 (n : Int) = n := by
  unfold JS.toInt32
  rw [toUint32_natCast n (by omega)]
  simp [h]

theorem jsToByte_natCast (n : Nat) (h : n < 256) : JS.jsToByte (n : Int) = n := by
  unfold JS.jsToByte
  rw [Int.emod_eq_of_lt (by positivity) (by exact_mod_cast h)]
  exact Int.toNat_natCast n

theorem jsAnd_natCast (a b : Nat) (ha : a < 4294967296) (hb : b < 2147483648) :
    JS.jsAnd a b = ((a &&& b : Nat) : Int) := by
  unfold JS.jsAnd
  rw [toUint32_natCast a ha, toUint32_natCast b (by omega)]
  exact toInt32_natCast _ (lt_of_le_of_lt Nat.and_le_right hb)

theorem jsOr_natCast (a b : Nat) (ha : a < 2147483648) (hb : b < 2147483648) :
    JS.jsOr a b = ((a ||| b : Nat) : Int) := by
  unfold JS.jsOr
  rw [toUint32_natCast a (by omega), toUint32_natCast b (by omega)]
  refine toInt32_natCast _ ?_
  have h2 := Nat.or_lt_two_pow (x := a) (y := b) (n := 31)
  norm_num at h2
  exact h2 ha hb

theorem jsShl_natCast (a : Nat) (s : Nat) (hs : s < 32) (ha : a < 4294967296)
    (h : a * 2 ^ s < 2147483648) : JS.jsShl a s = ((a * 2 ^ s : Nat) : Int) := by
  unfold JS.jsShl
  rw [toUint32_natCast a ha, Nat.mod_eq_of_lt hs, Nat.shiftLeft_eq]
  exact toInt32_natCast _ h

theorem jsShrU_natCast (a s : Nat) (ha : a < 4294967296) (hs : s < 32) :
    JS.jsShrU a s = ((a / 2 ^ s : Nat) : Int) := by
  unfold JS.jsShrU
  rw [toUint32_natCast a ha, Nat.mod_eq_of_lt hs, Nat.shiftRight_eq_div_pow]

theorem and_127_eq (a : Nat) : a &&& 127 = a % 128 := by
  have h := Nat.and_pow_two_sub_one_eq_mod a 7
  norm_num at h
  exact h

theorem and_128_of_lt {b : Nat} (h : b < 128) : b &&& 128 = 0 := by
  have h1 := Nat.and_two_pow b 7
  have h2 : b.testBit 7 = false := Nat.testBit_lt_two_pow (by norm_num; omega)
  rw [h2] at h1
  norm_num at h1
  exact h1

theorem and_128_of_ge {b : Nat} (h1 : 128 ≤ b) (h2 : b < 256) : b &&& 128 = 128 := by
  have ha := Nat.and_two_pow b 7
  have ht : b.testBit 7 = true := by
    rw [Nat.testBit_to_div_mod]
    have : b / 2 ^ 7 = 1 := by norm_num; omega
    rw [this]
    decide
  rw [ht] at ha
  norm_num at ha
  exact ha

theorem lor_mul_pow_eq_add {a : Nat} (b s : Nat) (h : a < 2 ^ s) :
    a ||| b * 2 ^ s = a + b * 2 ^ s := by
  calc a ||| b * 2 ^ s = b * 2 ^ s ||| a := Nat.lor_comm _ _
    _ = 2 ^ s * b ||| a := by rw [Nat.mul_comm]
    _ = 2 ^ s * b + a := (Nat.mul_add_lt_is_or h b).symm
    _ = a + b * 2 ^ s := by rw [Nat.mul_comm, Nat.add_comm]

/-- The varint decode loop only looks at `offset + bytesRead`: starting it
with `bytesRead = k` is the same as starting at `offset + k` and adding `k`
to the reported byte count. -/
theorem decodeVarIntLoop_advance (buffer : List Nat) :
    ∀ d offset result shift k, buffer.length - (offset + k) ≤ d →
    decodeVarIntLoop buffer offset result shift k =
      (decodeVarIntLoop buffer (offset + k) result shift 0).map (fun p => (p.1, p.2 + k)) := by
  intro d
  induction d with
  | zero =>
    intro offset result shift k hk
    rw [decodeVarIntLoop_unfold]
    conv_rhs => rw [decodeVarIntLoop_unfold]
    have hc : buffer.length ≤ offset + k := by omega
    simp [hc, Except.map]
  | succ n ih =>
    intro offset result shift k hk
    rw [decodeVarIntLoop_unfold]
    conv_rhs => rw [decodeVarIntLoop_unfold]
    simp only [Nat.add_zero]
    by_cases hc : buffer.length ≤ offset + k
    · simp [hc, Except.map]
    · rw [if_neg hc, if_neg hc]
      by_cases hbit :
          jsAnd ((buffer.getD (offset + k) 0 : Nat) : Int) 128 ≠ 0
      · rw [if_pos hbit, if_pos hbit]
        rw [ih offset _ (shift + 7) (k + 1) (by omega),
            ih (offset + k) _ (shift + 7) 1 (by omega)]
        have harg : offset + k + 1 = offset + (k + 1) := by omega
        rw [harg]
        cases decodeVarIntLoop buffer (offset + (k + 1)) _ (shift + 7) 0 with
        | error e => simp [Except.map]
        | ok p =>
          simp only [Except.map]
          have : p.2 + 1 + k = p.2 + (k + 1) := by omega
          rw [this]
      · rw [if_neg hbit, if_neg hbit]
        simp only [Except.map]
        have : 0 + 1 + k = k + 1 := by omega
        rw [this]

theorem encodeVarIntBytes_small (n : Nat) (h : n < 128) :
    Compress.encodeVarIntBytes (n : Int) = [(n : Int)] := by
  rw [Compress.encodeVarIntBytes_unfold]
  have hc : ¬ (128 ≤ (n : Int)) := by exact_mod_cast Nat.not_le.mpr h
  simp [hc]

theorem encodeVarIntBytes_step (n : Nat) (h : 128 ≤ n) (h32 : n < 4294967296) :
    Compress.encodeVarIntBytes (n : Int) =
      ((n % 128 + 128 : Nat) : Int) :: Compress.encodeVarIntBytes ((n / 128 : Nat) : Int) := by
  rw [Compress.encodeVarIntBytes_unfold]
  have hc : (128 : Int) ≤ (n : Int) := by exact_mod_cast h
  rw [if_pos hc]
  have e1 : JS.jsAnd (n : Int) 127 = ((n % 128 : Nat) : Int) := by
    have := jsAnd_natCast n 127 h32 (by norm_num)
    rw [and_127_eq] at this
    exact_mod_cast this
  have e2 : JS.jsOr ((n % 128 : Nat) : Int) 128 = ((n % 128 + 128 : Nat) : Int) := by
    have := jsOr_natCast (n % 128) 128 (by omega) (by norm_num)
    have hlor : n % 128 ||| 128 = n % 128 + 128 := by
      have := lor_mul_pow_eq_add (a := n % 128) 1 7 (by norm_num; omega)
      norm_num at this
      exact this
    rw [hlor] at this
    exact_mod_cast this
  have e3 : JS.jsShrU (n : Int) 7 = ((n / 128 : Nat) : Int) := by
    have := jsShrU_natCast n 7 h32 (by norm_num)
    norm_num at this
    exact this
  rw [e1, e2, e3]

/-- Auxiliary list-level fact used to read the head of the encoded buffer. -/
theorem getD_append_cons (pre : List Nat) (x : Nat) (rest : List Nat) :
    (pre ++ x :: rest).getD pre.length 0 = x := by
  induction pre with
  | nil => rfl
  | cons a l ih => simpa using ih

/-- Core round-trip induction: running the decode loop at the start of the
encoded byte group of `n` adds `n * 2^shift` to the accumulated result and
consumes exactly the group. -/
theorem decodeLoop_encodeBytes (n : Nat) : ∀ pre rest : List Nat, ∀ acc shift : Nat,
    shift < 32 → acc < 2 ^ shift → acc + n * 2 ^ shift < 2147483648 →
    decodeVarIntLoop (pre ++ (Compress.encodeVarIntBytes (n : Int)).map jsToByte ++ rest)
        pre.length (acc : Int) shift 0 =
      .ok (((acc + n * 2 ^ shift : Nat) : Int),
        ((Compress.encodeVarIntBytes (n : Int)).map jsToByte).length) := by
  induction n using Nat.strong_induction_on with
  | _ n ih =>
  intro pre rest acc shift hshift hacc hbound
  have hn31 : n < 2147483648 := by
    have h1 : n ≤ n * 2 ^ shift := Nat.le_mul_of_pos_right n (Nat.pos_pow_of_pos shift (by norm_num))
    omega
  have hshl : n % 128 * 2 ^ shift < 2147483648 := by
    have : n % 128 ≤ n := Nat.mod_le n 128
    have := Nat.mul_le_mul_right (2 ^ shift) this
    omega
  by_cases h128 : n < 128
  · rw [encodeVarIntBytes_small n h128]
    have hbyte : JS.jsToByte (n : Int) = n := jsToByte_natCast n (by omega)
    simp only [List.map_cons, List.map_nil, hbyte]
    rw [decodeVarIntLoop_unfold]
    have hlen : ¬ ((pre ++ [n] ++ rest).length ≤ pre.length + 0) := by
      simp [List.length_append]
    rw [if_neg hlen]
    have hget : (pre ++ [n] ++ rest).getD (pre.length + 0) 0 = n := by
      simpa using getD_append_cons pre n rest
    rw [hget]
    have eAnd127 : JS.jsAnd (n : Int) 127 = (n : Int) := by
      have := jsAnd_natCast n 127 (by omega) (by norm_num)
      rw [and_127_eq, Nat.mod_eq_of_lt h128] at this
      exact this
    have eAnd128 : JS.jsAnd (n : Int) 128 = 0 := by
      have := jsAnd_natCast n 128 (by omega) (by norm_num)
      rw [and_128_of_lt h128] at this
      simpa using this
    have eShl : JS.jsShl (n : Int) shift = ((n * 2 ^ shift : Nat) : Int) := by
      exact jsShl_natCast n shift hshift (by omega) (by omega)
    have eOr : JS.jsOr (acc : Int) ((n * 2 ^ shift : Nat) : Int) =
        ((acc + n * 2 ^ shift : Nat) : Int) := by
      have h1 := jsOr_natCast acc (n * 2 ^ shift) (by omega) (by omega)
      have h2 : acc ||| n * 2 ^ shift = acc + n * 2 ^ shift :=
        lor_mul_pow_eq_add n shift hacc
      rw [h2] at h1
      exact h1
    rw [eAnd128]
    simp only [ne_eq, not_true_eq_false, if_false, eAnd127, eShl, eOr]
    simp
  · push_neg at h128
    rw [encodeVarIntBytes_step n h128 (by omega)]
    have hbyte : JS.jsToByte ((n % 128 + 128 : Nat) : Int) = n % 128 + 128 :=
      jsToByte_natCast _ (by omega)
    simp only [List.map_cons, hbyte]
    rw [decodeVarIntLoop_unfold]
    have hlen : ¬ ((pre ++ (n % 128 + 128) ::
        (Compress.encodeVarIntBytes ((n / 128 : Nat) : Int)).map jsToByte ++ rest).length
          ≤ pre.length + 0) := by
      simp [List.length_append]
    rw [if_neg hlen]
    have hget : (pre ++ (n % 128 + 128) ::
        (Compress.encodeVarIntBytes ((n / 128 : Nat) : Int)).map jsToByte ++ rest).getD
          (pre.length + 0) 0 = n % 128 + 128 := by
      have := getD_append_cons pre (n % 128 + 128)
        ((Compress.encodeVarIntBytes ((n / 128 : Nat) : Int)).map jsToByte ++ rest)
      simpa using this
    rw [hget]
    have eAnd127 : JS.jsAnd ((n % 128 + 128 : Nat) : Int) 127 = ((n % 128 : Nat) : Int) := by
      have := jsAnd_natCast (n % 128 + 128) 127 (by omega) (by norm_num)
      rw [and_127_eq] at this
      have hm : (n % 128 + 128) % 128 = n % 128 := by omega
      rw [hm] at this
      exact this
    have eAnd128 : JS.jsAnd ((n % 128 + 128 : Nat) : Int) 128 = 128 := by
      have := jsAnd_natCast (n % 128 + 128) 128 (by omega) (by norm_num)
      rw [and_128_of_ge (by omega) (by omega)] at this
      simpa using this
    have eShl : JS.jsShl ((n % 128 : Nat) : Int) shift = ((n % 128 * 2 ^ shift : Nat) : Int) :=
      jsShl_natCast (n % 128) shift hshift (by omega) hshl
    have eOr : JS.jsOr (acc : Int) ((n % 128 * 2 ^ shift : Nat) : Int) =
        ((acc + n % 128 * 2 ^ shift : Nat) : Int) := by
      have h1 := jsOr_natCast acc (n % 128 * 2 ^ shift) (by omega) (by omega)
      rw [lor_mul_pow_eq_add (n % 128) shift hacc] at h1
      exact h1
    rw [eAnd128]
    simp only [ne_eq, OfNat.ofNat_ne_zero, not_false_eq_true, if_true, eAnd127, eShl, eOr]
    have hshift7 : shift + 7 < 32 := by
      have hpow : (2 : Nat) ^ (shift + 7) ≤ n * 2 ^ shift := by
        rw [Nat.pow_add]
        calc (2 : Nat) ^ shift * 2 ^ 7 = 2 ^ 7 * 2 ^ shift := by ring
          _ ≤ n * 2 ^ shift := Nat.mul_le_mul_right _ (by norm_num; omega)
      have h31 : (2 : Nat) ^ (shift + 7) < 2 ^ 31 := by
        calc (2 : Nat) ^ (shift + 7) ≤ n * 2 ^ shift := hpow
          _ < 2147483648 := by omega
          _ = 2 ^ 31 := by norm_num
      have := (Nat.pow_lt_pow_iff_right (a := 2) (by norm_num)).mp h31
      omega
    rw [decodeVarIntLoop_advance _
      ((pre ++ (n % 128 + 128) ::
        (Compress.encodeVarIntBytes ((n / 128 : Nat) : Int)).map jsToByte ++ rest).length)
      pre.length _ (shift + 7) (0 + 1) (by omega)]
    have hsplit : pre ++ (n % 128 + 128) ::
        (Compress.encodeVarIntBytes ((n / 128 : Nat) : Int)).map jsToByte ++ rest =
        (pre ++ [n % 128 + 128]) ++
          (Compress.encodeVarIntBytes ((n / 128 : Nat) : Int)).map jsToByte ++ rest := by
      simp
    have hplen : pre.length + (0 + 1) = (pre ++ [n % 128 + 128]).length := by
      simp
    rw [hplen, hsplit]
    have hdiv : n / 128 < n := Nat.div_lt_self (by omega) (by norm_num)
    have hidentity : acc + n % 128 * 2 ^ shift + n / 128 * 2 ^ (shift + 7) =
        acc + n * 2 ^ shift := by
      have hn : n % 128 + 128 * (n / 128) = n := by omega
      calc acc + n % 128 * 2 ^ shift + n / 128 * 2 ^ (shift + 7)
          = acc + (n % 128 + 128 * (n / 128)) * 2 ^ shift := by rw [Nat.pow_add]; ring
        _ = acc + n * 2 ^ shift := by rw [hn]
    rw [ih (n / 128) hdiv (pre ++ [n % 128 + 128]) rest (acc + n % 128 * 2 ^ shift)
      (shift + 7) hshift7
      (by
        have h127 : n % 128 * 2 ^ shift ≤ 127 * 2 ^ shift :=
          Nat.mul_le_mul_right _ (by omega)
        have hpow7 : (2 : Nat) ^ (shift + 7) = 2 ^ shift * 128 := by
          rw [Nat.pow_add]
        omega)
      (by rw [hidentity]; exact hbound)]
    simp only [Except.map, hidentity]
    simp [Nat.add_comm]

/-- Round trip of the unsigned varint codec for any value below `2^31`
(the zone in which the decoder's 32-bit arithmetic cannot overflow). -/
theorem varint_roundtrip_aux (n : Nat) (h : n < 2147483648) :
    decodeVarInt (Compress.encodeVarInt (n : Int)) 0 =
      .ok ((n : Int), (Compress.encodeVarInt (n : Int)).length) := by
  by_cases h0 : n = 0
  · subst h0
    simp only [Nat.cast_zero, Compress.encodeVarInt, if_pos rfl]
    rfl
  · rw [Compress.encodeVarInt]
    have hne : (n : Int) ≠ 0 := by exact_mod_cast h0
    rw [if_neg hne]
    have hmain := decodeLoop_encodeBytes n [] [] 0 0 (by norm_num) (by norm_num)
      (by norm_num; omega)
    simpa using hmain

/-- C1: for every `n` in `[0, 2^28)`, `decodeVarInt` applied at offset 0 to
the buffer produced by `encodeVarInt(n)` returns value `n` and a
`bytesRead` equal to the length of that buffer. -/
theorem C1_varint_roundtrip (n : Nat) (h : n < 2 ^ 28) :
    decodeVarInt (Compress.encodeVarInt (n : Int)) 0 =
      .ok ((n : Int), (Compress.encodeVarInt (n : Int)).length) :=
  varint_roundtrip_aux n (by norm_num at h ⊢; omega)

/-- Witness for C1 at the concrete input `n = 300`. -/
theorem C1_witness :
    (300 : Nat) < 2 ^ 28 ∧
      decodeVarInt (Compress.encodeVarInt ((300 : Nat) : Int)) 0 =
        .ok (((300 : Nat) : Int), (Compress.encodeVarInt ((300 : Nat) : Int)).length) :=
  ⟨by norm_num, C1_varint_roundtrip 300 (by norm_num)⟩

/-- XOR with an all-ones mask is complementation below the mask. -/
theorem xor_all_ones (k : Nat) : ∀ a, a < 2 ^ k → a ^^^ (2 ^ k - 1) = 2 ^ k - 1 - a := by
  induction k with
  | zero =>
    intro a ha
    have : a = 0 := by omega
    subst this
    rfl
  | succ k ih =>
    intro a ha
    have h1 : 1 ≤ (2 : Nat) ^ k := Nat.one_le_two_pow
    have h2 : (2 : Nat) ^ (k + 1) = 2 ^ k * 2 := by rw [Nat.pow_succ]
    have hdiv2 : a / 2 < 2 ^ k := by omega
    have hdiv : (a ^^^ (2 ^ (k + 1) - 1)) / 2 = (a / 2) ^^^ (2 ^ k - 1) := by
      rw [Nat.xor_div_two]
      congr 1
      omega
    have hIH := ih (a / 2) hdiv2
    have hxeq := Nat.div_add_mod (a ^^^ (2 ^ (k + 1) - 1)) 2
    rw [hdiv, hIH] at hxeq
    have haeq := Nat.div_add_mod a 2
    have hodd : (2 ^ (k + 1) - 1) % 2 = 1 := by omega
    have hiff := Nat.xor_mod_two_eq_one (a := a) (b := 2 ^ (k + 1) - 1)
    have hrange : (a ^^^ (2 ^ (k + 1) - 1)) % 2 < 2 := Nat.mod_lt _ (by norm_num)
    by_cases hp : a % 2 = 1
    · have hz : ¬ ((a ^^^ (2 ^ (k + 1) - 1)) % 2 = 1) := by
        rw [hiff]
        push_neg
        exact ⟨fun _ => hodd, fun _ => hp⟩
      omega
    · have hz : (a ^^^ (2 ^ (k + 1) - 1)) % 2 = 1 := by
        rw [hiff]
        intro hcon
        exact hp (hcon.mpr hodd)
      omega

theorem toUint32_neg (x : Int) (h1 : -4294967296 ≤ x) (h2 : x < 0) :
    JS.toUint32 x = (x + 4294967296).toNat := by
  unfold JS.toUint32
  have : x % 4294967296 = x + 4294967296 := by omega
  rw [this]

theorem toUint32_lt (x : Int) : JS.toUint32 x < 4294967296 := by
  unfold JS.toUint32
  omega

/-- `x << 1` is plain doubling for 32-bit-representable results. -/
theorem jsShl_one (n : Int) (hlo : -1073741824 ≤ n) (hhi : n < 1073741824) :
    JS.jsShl n 1 = 2 * n := by
  unfold JS.jsShl JS.toInt32 JS.toUint32
  have hs : (1 : Nat) % 32 = 1 := by norm_num
  rw [hs]
  have hmul : ∀ t : Nat, t <<< 1 = t * 2 := by
    intro t
    rw [Nat.shiftLeft_eq]
  rw [hmul]
  split <;> omega

/-- `n >> 31` is the sign of a 32-bit integer: `0` or `-1`. -/
theorem jsShrS_31 (n : Int) (hlo : -2147483648 ≤ n) (hhi : n < 2147483648) :
    JS.jsShrS n 31 = if 0 ≤ n then 0 else -1 := by
  unfold JS.jsShrS JS.toInt32 JS.toUint32
  have hs : (31 : Nat) % 32 = 31 := by norm_num
  rw [hs, Int.fdiv_eq_ediv _ (by positivity)]
  norm_num
  split_ifs <;> omega

/-- `a ^ 0 = a` for non-negative 32-bit values. -/
theorem jsXor_zero (a : Int) (h0 : 0 ≤ a) (h : a < 2147483648) : JS.jsXor a 0 = a := by
  unfold JS.jsXor JS.toInt32 JS.toUint32
  norm_num
  omega

/-- `a ^ (-1)` is 32-bit complement: `-a - 1`. -/
theorem jsXor_neg_one (a : Int) (hlo : -2147483648 ≤ a) (hhi : a < 2147483648) :
    JS.jsXor a (-1) = -a - 1 := by
  unfold JS.jsXor
  have hm1 : JS.toUint32 (-1) = 4294967295 := by
    unfold JS.toUint32
    decide
  rw [hm1]
  have hu := toUint32_lt a
  have hx : JS.toUint32 a ^^^ 4294967295 = 4294967295 - JS.toUint32 a := by
    have := xor_all_ones 32 (JS.toUint32 a) (by norm_num; exact hu)
    norm_num at this
    exact this
  rw [hx]
  unfold JS.toInt32 JS.toUint32
  unfold JS.toUint32 at hu
  split <;> omega

/-- `a & 1` is the parity bit. -/
theorem and_1_eq (a : Nat) : a &&& 1 = a % 2 := by
  calc a &&& 1 = a &&& (2 ^ 1 - 1) := by congr 1
    _ = a % 2 ^ 1 := Nat.and_pow_two_sub_one_eq_mod a 1
    _ = a % 2 := by rw [pow_one]

/-- C2: for every `n` in `(-2^27, 2^27)`, `decodeSignedVarInt` applied at
offset 0 to the buffer produced by `encodeSignedVarInt(n)` — zigzag map
`(n << 1) ^ (n >> 31)` on encode, `(v >>> 1) ^ -(v & 1)` on decode, in
32-bit semantics — returns the value `n` and consumes the whole buffer. -/
theorem C2_signed_roundtrip (n : Int) (h1 : -(2 ^ 27 : Int) < n) (h2 : n < 2 ^ 27) :
    decodeSignedVarInt (Compress.encodeSignedVarInt n) 0 =
      .ok (n, (Compress.encodeSignedVarInt n).length) := by
  have h27 : ((2 : Int) ^ 27) = 134217728 := by norm_num
  rw [h27] at h2
  rw [show -((2 : Int) ^ 27) = -134217728 by norm_num] at h1
  unfold Compress.encodeSignedVarInt decodeSignedVarInt
  rw [jsShl_one n (by omega) (by omega), jsShrS_31 n (by omega) (by omega)]
  by_cases h0 : 0 ≤ n
  · rw [if_pos h0]
    rw [jsXor_zero (2 * n) (by omega) (by omega)]
    have hcast : (2 * n) = (((2 * n.toNat : Nat)) : Int) := by omega
    rw [hcast]
    have hrt := varint_roundtrip_aux (2 * n.toNat) (by omega)
    rw [hrt]
    simp only [Bind.bind, Except.bind, Pure.pure, Except.pure]
    have e1 : JS.jsShrU ((2 * n.toNat : Nat) : Int) 1 = ((n.toNat : Nat) : Int) := by
      have h := jsShrU_natCast (2 * n.toNat) 1 (by omega) (by norm_num)
      norm_num at h
      simpa using h
    have e2 : JS.jsAnd ((2 * n.toNat : Nat) : Int) 1 = 0 := by
      have h := jsAnd_natCast (2 * n.toNat) 1 (by omega) (by norm_num)
      rw [and_1_eq] at h
      have hmod : 2 * n.toNat % 2 = 0 := by omega
      rw [hmod] at h
      simpa using h
    rw [e1, e2, neg_zero, jsXor_zero (n.toNat : Int) (by omega) (by omega),
      Int.toNat_of_nonneg h0]
  · rw [if_neg h0]
    rw [jsXor_neg_one (2 * n) (by omega) (by omega)]
    have hcast : (-(2 * n) - 1) = ((((-2 * n - 1).toNat : Nat)) : Int) := by omega
    rw [hcast]
    have hrt := varint_roundtrip_aux ((-2 * n - 1).toNat) (by omega)
    rw [hrt]
    simp only [Bind.bind, Except.bind, Pure.pure, Except.pure]
    have e1 : JS.jsShrU (((-2 * n - 1).toNat : Nat) : Int) 1 =
        (((-n - 1).toNat : Nat) : Int) := by
      have h := jsShrU_natCast ((-2 * n - 1).toNat) 1 (by omega) (by norm_num)
      rw [h]
      congr 1
      rw [pow_one]
      omega
    have e2 : JS.jsAnd (((-2 * n - 1).toNat : Nat) : Int) 1 = 1 := by
      have h := jsAnd_natCast ((-2 * n - 1).toNat) 1 (by omega) (by norm_num)
      rw [and_1_eq] at h
      have hmod : (-2 * n - 1).toNat % 2 = 1 := by omega
      rw [hmod] at h
      simpa using h
    rw [e1, e2]
    rw [jsXor_neg_one ((((-n - 1).toNat : Nat)) : Int) (by omega) (by omega)]
    have hfin : -((((-n - 1).toNat : Nat)) : Int) - 1 = n := by omega
    rw [hfin]

/-- Witness for C2 at the concrete input `n = -5`. -/
theorem C2_witness :
    -(2 ^ 27 : Int) < -5 ∧ (-5 : Int) < 2 ^ 27 ∧
      decodeSignedVarInt (Compress.encodeSignedVarInt (-5)) 0 =
        .ok (-5, (Compress.encodeSignedVarInt (-5)).length) :=
  ⟨by norm_num, by norm_num, C2_signed_roundtrip (-5) (by norm_num) (by norm_num)⟩

/-- Entries read through `getD` inside the buffer are actual bytes. -/
theorem getD_lt_256 {buffer : List Nat} (hb : ∀ b ∈ buffer, b < 256)
    {i : Nat} (hi : i < buffer.length) : buffer.getD i 0 < 256 := by
  rw [List.getD_eq_getElem buffer 0 hi]
  exact hb _ (List.getElem_mem hi)

/-- If every byte from the cursor on has its continuation bit set, the
decode loop runs off the end of the buffer and reports an overflow. -/
theorem decodeVarIntLoop_all_high (buffer : List Nat) (hb : ∀ b ∈ buffer, b < 256) :
    ∀ d offset r s k, buffer.length - (offset + k) ≤ d →
    (∀ i, offset + k ≤ i → i < buffer.length → 128 ≤ buffer.getD i 0) →
    ∃ e, decodeVarIntLoop buffer offset r s k = .error e := by
  intro d
  induction d with
  | zero =>
    intro offset r s k hd _hhigh
    rw [decodeVarIntLoop_unfold]
    have hc : buffer.length ≤ offset + k := by omega
    rw [if_pos hc]
    exact ⟨_, rfl⟩
  | succ n ih =>
    intro offset r s k hd hhigh
    rw [decodeVarIntLoop_unfold]
    by_cases hc : buffer.length ≤ offset + k
    · rw [if_pos hc]
      exact ⟨_, rfl⟩
    · rw [if_neg hc]
      have hbyte_ge := hhigh (offset + k) (le_refl _) (by omega)
      have hbyte_lt := getD_lt_256 hb (show offset + k < buffer.length by omega)
      have hAnd : JS.jsAnd ((buffer.getD (offset + k) 0 : Nat) : Int) 128 = 128 := by
        have h := jsAnd_natCast (buffer.getD (offset + k) 0) 128 (by omega) (by norm_num)
        rw [and_128_of_ge hbyte_ge hbyte_lt] at h
        simpa using h
      rw [hAnd]
      norm_num
      exact ih offset _ (s + 7) (k + 1) (by omega)
        (fun i h1 h2 => hhigh i (by omega) h2)

/-- If the first byte with the continuation bit clear sits at index `j`,
the decode loop returns normally after consuming bytes up to and
including index `j`. -/
theorem decodeVarIntLoop_stops (buffer : List Nat) (hb : ∀ b ∈ buffer, b < 256) :
    ∀ d offset r s k j, j - (offset + k) ≤ d → offset + k ≤ j → j < buffer.length →
    buffer.getD j 0 < 128 →
    (∀ i, offset + k ≤ i → i < j → 128 ≤ buffer.getD i 0) →
    ∃ v, decodeVarIntLoop buffer offset r s k = .ok (v, j - offset + 1) := by
  intro d
  induction d with
  | zero =>
    intro offset r s k j hd hge hlt hlow _hhigh
    have hj : j = offset + k := by omega
    subst hj
    rw [decodeVarIntLoop_unfold]
    rw [if_neg (by omega)]
    have hAnd : JS.jsAnd ((buffer.getD (offset + k) 0 : Nat) : Int) 128 = 0 := by
      have h := jsAnd_natCast (buffer.getD (offset + k) 0) 128 (by omega) (by norm_num)
      rw [and_128_of_lt hlow] at h
      simpa using h
    rw [hAnd]
    norm_num
  | succ n ih =>
    intro offset r s k j hd hge hlt hlow hhigh
    by_cases hj : j = offset + k
    · subst hj
      rw [decodeVarIntLoop_unfold, if_neg (by omega)]
      have hAnd : JS.jsAnd ((buffer.getD (offset + k) 0 : Nat) : Int) 128 = 0 := by
        have h := jsAnd_natCast (buffer.getD (offset + k) 0) 128 (by omega) (by norm_num)
        rw [and_128_of_lt hlow] at h
        simpa using h
      rw [hAnd]
      norm_num
    · rw [decodeVarIntLoop_unfold, if_neg (by omega)]
      have hbyte_ge := hhigh (offset + k) (le_refl _) (by omega)
      have hbyte_lt := getD_lt_256 hb (show offset + k < buffer.length by omega)
      have hAnd : JS.jsAnd ((buffer.getD (offset + k) 0 : Nat) : Int) 128 = 128 := by
        have h := jsAnd_natCast (buffer.getD (offset + k) 0) 128 (by omega) (by norm_num)
        rw [and_128_of_ge hbyte_ge hbyte_lt] at h
        simpa using h
      rw [hAnd]
      norm_num
      exact ih offset _ (s + 7) (k + 1) j (by omega) (by omega) hlt hlow
        (fun i h1 h2 => hhigh i (by omega) h2)

/-- C6: `decodeVarInt(buffer, offset)` throws exactly on truncation.  If the
offset is at or past the end of the buffer, or every byte from the offset to
the end has its high (continuation) bit set, the decoder reports a buffer
overflow; otherwise it returns normally, consuming the bytes up to and
including the first byte (index `j`) whose high bit is clear. -/
theorem C6_decodeVarInt_truncation (buffer : List Nat) (offset : Nat)
    (hb : ∀ b ∈ buffer, b < 256) :
    ((buffer.length ≤ offset ∨
        (∀ i, offset ≤ i → i < buffer.length → 128 ≤ buffer.getD i 0)) →
      ∃ e, decodeVarInt buffer offset = .error e) ∧
    (∀ j, offset ≤ j → j < buffer.length → buffer.getD j 0 < 128 →
      (∀ i, offset ≤ i → i < j → 128 ≤ buffer.getD i 0) →
      ∃ v, decodeVarInt buffer offset = .ok (v, j - offset + 1)) := by
  constructor
  · intro hcase
    rcases hcase with hend | hhigh
    · exact decodeVarIntLoop_all_high buffer hb buffer.length offset 0 0 0 (by omega)
        (fun i h1 h2 => by omega)
    · exact decodeVarIntLoop_all_high buffer hb buffer.length offset 0 0 0 (by omega)
        (fun i h1 h2 => hhigh i (by omega) h2)
  · intro j h1 h2 h3 h4
    exact decodeVarIntLoop_stops buffer hb j offset 0 0 0 j (by omega) (by omega) h2 h3
      (fun i hi1 hi2 => h4 i (by omega) hi2)

/-- Witness for C6 on the concrete buffer `[133, 3, 128]`: decoding at
offset 0 stops after the two bytes `133, 3` (value irrelevant), and decoding
at offset 2 (only a continuation byte left) overflows. -/
theorem C6_witness :
    (∃ v, decodeVarInt [133, 3, 128] 0 = .ok (v, 2)) ∧
      (∃ e, decodeVarInt [133, 3, 128] 2 = .error e) := by
  constructor
  · have h := (C6_decodeVarInt_truncation [133, 3, 128] 0 (by decide)).2 1
      (by omega) (by norm_num) (by decide)
      (fun i hi1 hi2 => by
        have : i = 0 := by omega
        subst this
        decide)
    simpa using h
  · exact (C6_decodeVarInt_truncation [133, 3, 128] 2 (by decide)).1
      (Or.inr (fun i hi1 hi2 => by
        have : i = 2 := by simp at hi2; omega
        subst this
        decide))

instance {ε α : Type} [DecidableEq ε] [DecidableEq α] : DecidableEq (Except ε α) := fun a b =>
  match a, b with
  | .ok x, .ok y => decidable_of_iff (x = y) ⟨fun h => h ▸ rfl, Except.ok.inj⟩
  | .error x, .error y => decidable_of_iff (x = y) ⟨fun h => h ▸ rfl, Except.error.inj⟩
  | .ok _, .error _ => isFalse (fun h => Except.noConfusion h)
  | .error _, .ok _ => isFalse (fun h => Except.noConfusion h)

/-!
## JavaScript string primitives

JavaScript strings are modelled as `List Char` (all strings handled by these
scripts are ASCII).
-/

namespace JS

/-- `s.startsWith(pre)`. -/
def jsStartsWith (pre s : List Char) : Bool := pre.isPrefixOf s

/-- `s.toUpperCase()` on ASCII strings. -/
def jsToUpperCase (s : List Char) : List Char := s.map Char.toUpper

/-- The whitespace class `\s` of JavaScript regexes, restricted to ASCII. -/
def isWsJS (c : Char) : Bool :=
  c = ' ' || c = '\t' || c = '\n' || c = '\r' || c = '\x0b' || c = '\x0c'

/-- Value of one hexadecimal digit. -/
def hexVal (c : Char) : Option Nat :=
  if '0' ≤ c ∧ c ≤ '9' then some (c.toNat - '0'.toNat)
  else if 'a' ≤ c ∧ c ≤ 'f' then some (c.toNat - 'a'.toNat + 10)
  else if 'A' ≤ c ∧ c ≤ 'F' then some (c.toNat - 'A'.toNat + 10)
  else none

def isHexDigit (c : Char) : Bool := (hexVal c).isSome

def hexValue (ds : List Char) : Nat := ds.foldl (fun acc c => acc * 16 + (hexVal c).getD 0) 0

/-- `parseInt(s, 16)` restricted to strings without sign, `0x` prefix or
leading whitespace (the only shapes fed to it by these scripts): the maximal
leading run of hex digits, `NaN` (`none`) when that run is empty. -/
def parseIntHex (s : List Char) : Option Nat :=
  let ds := s.takeWhile isHexDigit
  if ds.isEmpty then none else some (hexValue ds)

/-- The byte `Buffer.from` stores for a parsed number (`NaN` becomes 0). -/
def byteOfNum : Option Nat → Nat
  | none => 0
  | some v => v % 256

/-- `s.substring(a, b)` for `a ≤ b`. -/
def substring (s : List Char) (a b : Nat) : List Char := (s.drop a).take (b - a)

/-- Lowercase hexadecimal digit. -/
def hexDigitL (d : Nat) : Char :=
  if d < 10 then Char.ofNat (48 + d) else Char.ofNat (97 + d - 10)

/-- Uppercase hexadecimal digit. -/
def hexDigitU (d : Nat) : Char :=
  if d < 10 then Char.ofNat (48 + d) else Char.ofNat (65 + d - 10)

def natToHexAux : Nat → Nat → List Char
  | 0, _ => []
  | fuel + 1, n =>
    if n < 16 then [hexDigitL n] else natToHexAux fuel (n / 16) ++ [hexDigitL (n % 16)]

/-- `Number.prototype.toString(16)` of a non-negative integer (lowercase
digits); the fuel argument of the helper strictly bounds the digit count. -/
def natToHex (n : Nat) : List Char := natToHexAux (n + 1) n

/-- `toString(16)` of an integer-valued number. -/
def jsToString16 (v : Int) : List Char :=
  if v < 0 then '-' :: natToHex v.natAbs else natToHex v.toNat

/-- `s.padStart(n, c)`. -/
def padStart (s : List Char) (n : Nat) (c : Char) : List Char :=
  List.replicate (n - s.length) c ++ s

def digitsValue (ds : List Char) : Nat :=
  ds.foldl (fun acc c => acc * 10 + (c.toNat - 48)) 0

/-- Greedy `\d+`: the maximal leading digit run and the rest. -/
def parseDigits (cs : List Char) : Option (Nat × List Char) :=
  let ds := cs.takeWhile Char.isDigit
  if ds.isEmpty then none else some (digitsValue ds, cs.dropWhile Char.isDigit)

/-- Greedy `\s*`. -/
def skipWs (cs : List Char) : List Char := cs.dropWhile isWsJS

end JS

namespace Compress

/-- One attempted match of `/rgb\(\s*(\d+)\s*,\s*(\d+)\s*,\s*(\d+)\s*\)/`
anchored at the head of the list.  The character classes of consecutive
regex tokens (`\d`, `\s`, `,`, `)`) are pairwise disjoint, so greedy
matching never backtracks and this deterministic parser is exactly the
regex. -/
def rgbMatchAt (cs : List Char) : Option (Nat × Nat × Nat) :=
  match cs with
  | 'r' :: 'g' :: 'b' :: '(' :: rest =>
    match JS.parseDigits (JS.skipWs rest) with
    | none => none
    | some (r, rest1) =>
      match JS.skipWs rest1 with
      | ',' :: rest2 =>
        match JS.parseDigits (JS.skipWs rest2) with
        | none => none
        | some (g, rest3) =>
          match JS.skipWs rest3 with
          | ',' :: rest4 =>
            match JS.parseDigits (JS.skipWs rest4) with
            | none => none
            | some (b, rest5) =>
              match JS.skipWs rest5 with
              | ')' :: _ => some (r, g, b)
              | _ => none
          | _ => none
      | _ => none
  | _ => none

/-- `color.match(/rgb\(...\)/)`: the regex is unanchored, so the engine
tries every start position from left to right. -/
def rgbMatch : List Char → Option (Nat × Nat × Nat)
  | [] => none
  | c :: rest =>
    match rgbMatchAt (c :: rest) with
    | some x => some x
    | none => rgbMatch rest

/-- `COLOR_DICT` of compress.js (lines 38–58), keys as written there. -/
def COLOR_DICT : List (List Char × Nat) :=
  [("000000".data, 1), ("FFFFFF".data, 2), ("808080".data, 3), ("FF0000".data, 4),
   ("00FF00".data, 5), ("0000FF".data, 6), ("FFFF00".data, 7), ("00FFFF".data, 8),
   ("FF00FF".data, 9), ("C0C0C0".data, 10), ("FFA500".data, 11), ("800000".data, 12),
   ("008000".data, 13), ("000080".data, 14), ("800080".data, 15), ("999999".data, 16),
   ("333333".data, 17), ("CCCCCC".data, 18), ("none".data, 0)]

/-- JavaScript property read `COLOR_DICT[k]` (`undefined` when absent). -/
def colorDictGet (s : List Char) : Option Nat :=
  (COLOR_DICT.find? (fun p => p.1 = s)).map Prod.snd

/-- JavaScript truthiness of a looked-up number (`undefined` and `0` are
falsy). -/
def truthy : Option Nat → Bool
  | none => false
  | some v => v != 0

/-- The local `hex` computed by `encodeColor` (compress.js lines 107–128):
normalization of the incoming color to six upper-case hex digits.  The
`h.length == 3` branch doubles each digit of a shorthand `#RGB` form. -/
def encodeColorHex (color : List Char) : List Char :=
  if JS.jsStartsWith ['#'] color then
    if (JS.jsToUpperCase (color.drop 1)).length = 3 then
      (JS.jsToUpperCase (color.drop 1)).foldr (fun c acc => c :: c :: acc) []
    else JS.jsToUpperCase (color.drop 1)
  else if JS.jsStartsWith ['r', 'g', 'b'] color then
    match rgbMatch color with
    | some (r, g, b) =>
      JS.jsToUpperCase (JS.padStart
        (JS.jsToString16 (JS.jsOr (JS.jsOr (JS.jsShl (r : Int) 16) (JS.jsShl (g : Int) 8))
          (b : Int))) 6 '0')
    | none => ['0', '0', '0', '0', '0', '0']
  else if truthy (colorDictGet (JS.jsToUpperCase color)) then JS.jsToUpperCase color
  else ['0', '0', '0', '0', '0', '0']

/-- `encodeColor` (compress.js lines 104–142). -/
def encodeColor (color : List Char) : List Nat :=
  if color = [] ∨ color = ['n', 'o', 'n', 'e'] then [0]
  else
    if truthy (colorDictGet (encodeColorHex color)) then
      [(colorDictGet (encodeColorHex color)).getD 0]
    else
      [254, JS.byteOfNum (JS.parseIntHex (JS.substring (encodeColorHex color) 0 2)),
        JS.byteOfNum (JS.parseIntHex (JS.substring (encodeColorHex color) 2 4)),
        JS.byteOfNum (JS.parseIntHex (JS.substring (encodeColorHex color) 4 6))]

end Compress

namespace Decompress

/-- `COLOR_DICT` of decompress.js (lines 5–25): code → hex string. -/
def COLOR_DICT : List (Nat × List Char) :=
  [(1, "000000".data), (2, "FFFFFF".data), (3, "808080".data), (4, "FF0000".data),
   (5, "00FF00".data), (6, "0000FF".data), (7, "FFFF00".data), (8, "00FFFF".data),
   (9, "FF00FF".data), (10, "C0C0C0".data), (11, "FFA500".data), (12, "800000".data),
   (13, "008000".data), (14, "000080".data), (15, "800080".data), (16, "999999".data),
   (17, "333333".data), (18, "CCCCCC".data), (0, "none".data)]

def colorDictGet (n : Nat) : Option (List Char) :=
  (COLOR_DICT.find? (fun p => p.1 = n)).map Prod.snd

/-- `decodeColor` (decompress.js lines 89–122). -/
def decodeColor (buffer : List Nat) (offset : Nat) : Except String (List Char × Nat) :=
  if buffer.length ≤ offset then
    .error "Buffer overflow when reading color"
  else
    if buffer.getD offset 0 < 254 ∧ (colorDictGet (buffer.getD offset 0)).isSome then
      .ok ((if buffer.getD offset 0 = 0 then "none".data
        else '#' :: (colorDictGet (buffer.getD offset 0)).getD []), 1)
    else if buffer.getD offset 0 = 254 then
      if buffer.length ≤ offset + 3 then
        .error "Buffer overflow when reading RGB color"
      else
        .ok (JS.jsToUpperCase ('#' ::
          (JS.padStart (JS.natToHex (buffer.getD (offset + 1) 0)) 2 '0' ++
           JS.padStart (JS.natToHex (buffer.getD (offset + 2) 0)) 2 '0' ++
           JS.padStart (JS.natToHex (buffer.getD (offset + 3) 0)) 2 '0')), 4)
    else
      .error "Unknown color encoding"

end Decompress

/-- C3: every color in the script's dictionary — the 18 six-digit hex
colors and `'none'` — round-trips through `encodeColor`/`decodeColor` up to
case normalization: `'none'` decodes to `'none'` and a hex key `K` decodes
to `'#' ++ K` (upper case). -/
theorem C3_color_dict_roundtrip :
    ∀ p ∈ Compress.COLOR_DICT,
      Decompress.decodeColor (Compress.encodeColor p.1) 0 =
        .ok ((if p.1 = "none".data then "none".data else '#' :: p.1), 1) := by
  decide

/-- Witness for C3 at the dictionary color `FF0000` (red). -/
theorem C3_witness :
    Decompress.decodeColor (Compress.encodeColor "FF0000".data) 0 =
      .ok ('#' :: "FF0000".data, 1) := by
  have h := C3_color_dict_roundtrip ("FF0000".data, 4) (by decide)
  rw [if_neg (by decide)] at h
  exact h

/-- The canonical upper-case two-hex-digit spelling of a byte. -/
def hexByte (n : Nat) : List Char := [JS.hexDigitU (n / 16), JS.hexDigitU (n % 16)]

theorem toUpper_hexDigitU : ∀ d, d < 16 → Char.toUpper (JS.hexDigitU d) = JS.hexDigitU d := by
  decide

theorem toUpper_hexDigitL : ∀ d, d < 16 → Char.toUpper (JS.hexDigitL d) = JS.hexDigitU d := by
  decide

theorem hexVal_hexDigitU : ∀ d, d < 16 → JS.hexVal (JS.hexDigitU d) = some d := by
  decide

theorem isHexDigit_hexDigitU : ∀ d, d < 16 → JS.isHexDigit (JS.hexDigitU d) = true := by
  decide

theorem toUpper_hexByte (n : Nat) (h : n < 256) :
    JS.jsToUpperCase (hexByte n) = hexByte n := by
  unfold JS.jsToUpperCase hexByte
  simp only [List.map_cons, List.map_nil]
  rw [toUpper_hexDigitU (n / 16) (by omega), toUpper_hexDigitU (n % 16) (by omega)]

theorem parseIntHex_hexByte (n : Nat) (h : n < 256) :
    JS.parseIntHex (hexByte n) = some n := by
  unfold JS.parseIntHex hexByte
  have h1 := isHexDigit_hexDigitU (n / 16) (by omega)
  have h2 := isHexDigit_hexDigitU (n % 16) (by omega)
  simp only [List.takeWhile, h1, h2, List.isEmpty_cons, ite_false, if_false]
  norm_num
  unfold JS.hexValue
  simp only [List.foldl]
  rw [hexVal_hexDigitU (n / 16) (by omega), hexVal_hexDigitU (n % 16) (by omega)]
  simp only [Option.getD_some]
  omega

set_option maxRecDepth 4000 in
theorem padStart_natToHex (n : Nat) (h : n < 256) :
    JS.padStart (JS.natToHex n) 2 '0' = [JS.hexDigitL (n / 16), JS.hexDigitL (n % 16)] := by
  revert n
  decide


theorem jsStartsWith_hash (s : List Char) : JS.jsStartsWith ['#'] ('#' :: s) = true := by
  simp [JS.jsStartsWith, List.isPrefixOf]

/-- `encodeColorHex` on a `'#'`-prefixed six-digit upper-case hex string is
the string itself. -/
theorem encodeColorHex_hash (r g b : Nat) (hr : r < 256) (hg : g < 256) (hb : b < 256) :
    Compress.encodeColorHex ('#' :: (hexByte r ++ hexByte g ++ hexByte b)) =
      hexByte r ++ hexByte g ++ hexByte b := by
  have hupper : JS.jsToUpperCase (hexByte r ++ hexByte g ++ hexByte b) =
      hexByte r ++ hexByte g ++ hexByte b := by
    unfold JS.jsToUpperCase
    rw [List.map_append, List.map_append]
    rw [show List.map Char.toUpper (hexByte r) = JS.jsToUpperCase (hexByte r) from rfl,
      show List.map Char.toUpper (hexByte g) = JS.jsToUpperCase (hexByte g) from rfl,
      show List.map Char.toUpper (hexByte b) = JS.jsToUpperCase (hexByte b) from rfl]
    rw [toUpper_hexByte r hr, toUpper_hexByte g hg, toUpper_hexByte b hb]
  unfold Compress.encodeColorHex
  rw [if_pos (jsStartsWith_hash _)]
  simp only [List.drop_succ_cons, List.drop_zero]
  rw [hupper]
  rw [if_neg (by simp [hexByte])]

set_option maxRecDepth 4000 in
/-- C5: an RGB triple whose six-hex-digit form is not in the dictionary is
encoded through the 254-marker path as `[254, r, g, b]` and decoded back
byte-exactly to the same `#RRGGBB` string, consuming 4 bytes. -/
theorem C5_rgb_roundtrip (r g b : Nat) (hr : r < 256) (hg : g < 256) (hb : b < 256)
    (hdict : Compress.colorDictGet (hexByte r ++ hexByte g ++ hexByte b) = none) :
    Compress.encodeColor ('#' :: (hexByte r ++ hexByte g ++ hexByte b)) = [254, r, g, b] ∧
      Decompress.decodeColor [254, r, g, b] 0 =
        .ok ('#' :: (hexByte r ++ hexByte g ++ hexByte b), 4) := by
  constructor
  · unfold Compress.encodeColor
    rw [if_neg (by
      rintro (hc | hc)
      · exact List.noConfusion hc
      · simp at hc)]
    rw [encodeColorHex_hash r g b hr hg hb, hdict]
    rw [show Compress.truthy none = false from rfl]
    norm_num
    refine ⟨?_, ?_, ?_⟩
    · have hsub : JS.substring (hexByte r ++ (hexByte g ++ hexByte b)) 0 2 = hexByte r := by
        simp [JS.substring, hexByte]
      rw [hsub, parseIntHex_hexByte r hr]
      simp [JS.byteOfNum]
      omega
    · have hsub : JS.substring (hexByte r ++ (hexByte g ++ hexByte b)) 2 4 = hexByte g := by
        simp [JS.substring, hexByte]
      rw [hsub, parseIntHex_hexByte g hg]
      simp [JS.byteOfNum]
      omega
    · have hsub : JS.substring (hexByte r ++ (hexByte g ++ hexByte b)) 4 6 = hexByte b := by
        simp [JS.substring, hexByte]
      rw [hsub, parseIntHex_hexByte b hb]
      simp [JS.byteOfNum]
      omega
  · unfold Decompress.decodeColor
    rw [if_neg (by norm_num)]
    rw [if_neg (by norm_num)]
    rw [if_pos (by norm_num)]
    rw [if_neg (by norm_num)]
    rw [show List.getD [254, r, g, b] (0 + 1) 0 = r from rfl,
      show List.getD [254, r, g, b] (0 + 2) 0 = g from rfl,
      show List.getD [254, r, g, b] (0 + 3) 0 = b from rfl]
    rw [padStart_natToHex r hr, padStart_natToHex g hg, padStart_natToHex b hb]
    unfold JS.jsToUpperCase
    simp only [List.map_cons, List.map_append, List.map_nil]
    rw [show Char.toUpper '#' = '#' from rfl]
    rw [toUpper_hexDigitL (r / 16) (by omega), toUpper_hexDigitL (r % 16) (by omega),
      toUpper_hexDigitL (g / 16) (by omega), toUpper_hexDigitL (g % 16) (by omega),
      toUpper_hexDigitL (b / 16) (by omega), toUpper_hexDigitL (b % 16) (by omega)]
    simp [hexByte]

/-- Witness for C5 at the RGB triple `(1, 2, 3)` (hex `#010203`, not in the
dictionary). -/
theorem C5_witness :
    Compress.colorDictGet (hexByte 1 ++ hexByte 2 ++ hexByte 3) = none ∧
      (Compress.encodeColor ('#' :: (hexByte 1 ++ hexByte 2 ++ hexByte 3)) = [254, 1, 2, 3] ∧
        Decompress.decodeColor [254, 1, 2, 3] 0 =
          .ok ('#' :: (hexByte 1 ++ hexByte 2 ++ hexByte 3), 4)) :=
  ⟨by decide, C5_rgb_roundtrip 1 2 3 (by norm_num) (by norm_num) (by norm_num) (by decide)⟩

/-- Counterexample to C9 as stated: the input `'cccccc'` is non-empty, not
`'none'`, has no `'#'` or parseable `rgb(...)` form, and is literally not a
key of the color dictionary (whose keys are upper case) — yet `encodeColor`
emits the dictionary index 18 (light gray `#CCCCCC`), not the black
index 1. -/
theorem C9_counterexample :
    "cccccc".data ≠ [] ∧
      "cccccc".data ≠ "none".data ∧
      JS.jsStartsWith ['#'] "cccccc".data = false ∧
      Compress.rgbMatch "cccccc".data = none ∧
      Compress.colorDictGet "cccccc".data = none ∧
      Compress.encodeColor "cccccc".data = [18] ∧
      Compress.encodeColor "cccccc".data ≠ [1] := by
  decide

/-- C9 amended: an input color that is not empty/`'none'`, does not start
with `'#'`, has no parseable `rgb(r,g,b)` occurrence, and whose upper-cased
form is not a key of the color dictionary, is silently encoded as the
one-byte dictionary index for black (`#000000`). -/
theorem C9_amended_unknown_color_black (c : List Char)
    (h1 : c ≠ []) (h2 : c ≠ "none".data)
    (h3 : JS.jsStartsWith ['#'] c = false)
    (h4 : Compress.rgbMatch c = none)
    (h5 : Compress.colorDictGet (JS.jsToUpperCase c) = none) :
    Compress.encodeColor c = [1] := by
  have hhex : Compress.encodeColorHex c = ['0', '0', '0', '0', '0', '0'] := by
    unfold Compress.encodeColorHex
    rw [h3]
    norm_num
    by_cases hrgb : JS.jsStartsWith ['r', 'g', 'b'] c = true
    · rw [if_pos hrgb, h4]
    · rw [if_neg hrgb, h5]
      rw [show Compress.truthy none = false from rfl]
      norm_num
  unfold Compress.encodeColor
  rw [if_neg (by
    rintro (hc | hc)
    · exact h1 hc
    · exact h2 (by rw [hc]))]
  rw [hhex]
  decide

/-- Witness for the amended C9 at the concrete input `'blurple'`. -/
theorem C9_witness : Compress.encodeColor "blurple".data = [1] :=
  C9_amended_unknown_color_black "blurple".data (by decide) (by decide) (by decide)
    (by decide) (by decide)

namespace JS

/-- ASCII letter class `[A-Za-z]`. -/
def isAsciiLetter (c : Char) : Bool :=
  ('a' ≤ c && c ≤ 'z') || ('A' ≤ c && c ≤ 'Z')

/-- `s.toLowerCase()` on ASCII strings. -/
def jsToLowerCase (s : List Char) : List Char := s.map Char.toLower

/-- Helper for `replace(/\s+/g, ' ')`: the flag records whether the previous
character belonged to a whitespace run already replaced. -/
def collapseWsAux : Bool → List Char → List Char
  | _, [] => []
  | inWs, c :: rest =>
    if isWsJS c then
      if inWs then collapseWsAux true rest else ' ' :: collapseWsAux true rest
    else c :: collapseWsAux false rest

/-- `s.replace(/\s+/g, ' ')`: every maximal whitespace run becomes one
space. -/
def collapseWs (s : List Char) : List Char := collapseWsAux false s

/-- `s.replace(/([a-zA-Z])/g, ' $1 ')`. -/
def spaceAroundLetters (s : List Char) : List Char :=
  s.foldr (fun c acc => if isAsciiLetter c then ' ' :: c :: ' ' :: acc else c :: acc) []

/-- `s.trim()`. -/
def jsTrim (s : List Char) : List Char :=
  ((s.dropWhile isWsJS).reverse.dropWhile isWsJS).reverse

/-- `s.split(' ')`. -/
def splitOnSpace : List Char → List (List Char)
  | [] => [[]]
  | c :: rest =>
    if c = ' ' then [] :: splitOnSpace rest
    else
      match splitOnSpace rest with
      | [] => [[c]]
      | t :: ts => (c :: t) :: ts

/-- Decimal value of a digit run (as an exact rational). -/
def digitsValQ (ds : List Char) : ℚ := (digitsValue ds : ℚ)

/-- `parseFloat(s)`: leading whitespace, optional sign, digits with an
optional fraction and exponent; `NaN` (`none`) when no digits at all.
(`Infinity` forms never occur in these scripts.) -/
def jsParseFloat (s : List Char) : Option ℚ :=
  let s1 := s.dropWhile isWsJS
  let sgn : ℚ := if s1.headD ' ' = '-' then -1 else 1
  let s2 := if s1.headD ' ' = '-' ∨ s1.headD ' ' = '+' then s1.drop 1 else s1
  let intPart := s2.takeWhile Char.isDigit
  let s3 := s2.dropWhile Char.isDigit
  let fracPart := if s3.headD ' ' = '.' then (s3.drop 1).takeWhile Char.isDigit else []
  let s4 := if s3.headD ' ' = '.' then (s3.drop 1).dropWhile Char.isDigit else s3
  if intPart.isEmpty ∧ fracPart.isEmpty then none
  else
    let mantissa : ℚ := digitsValQ intPart + digitsValQ fracPart / (10 ^ fracPart.length)
    let expPart :=
      if s4.headD ' ' = 'e' ∨ s4.headD ' ' = 'E' then
        let s5 := s4.drop 1
        let esgn : Bool := s5.headD ' ' = '-'
        let s6 := if s5.headD ' ' = '-' ∨ s5.headD ' ' = '+' then s5.drop 1 else s5
        let eds := s6.takeWhile Char.isDigit
        if eds.isEmpty then (0 : Int)
        else if esgn then -(digitsValue eds : Int) else (digitsValue eds : Int)
      else 0
    some (if 0 ≤ expPart then sgn * mantissa * 10 ^ expPart.toNat
      else sgn * mantissa / 10 ^ (-expPart).toNat)

/-- Decimal digit character. -/
def decDigit (d : Nat) : Char := Char.ofNat (48 + d)

def natToDecAux : Nat → Nat → List Char
  | 0, _ => []
  | fuel + 1, n =>
    if n < 10 then [decDigit n] else natToDecAux fuel (n / 10) ++ [decDigit (n % 10)]

/-- Decimal spelling of a natural number. -/
def natToDec (n : Nat) : List Char := natToDecAux (n + 1) n

/-- Template-literal spelling `${v}` of an integer-valued number. -/
def jsIntToString (v : Int) : List Char :=
  if v < 0 then '-' :: natToDec (-v).toNat else natToDec v.toNat

/-- `q.toFixed(d)` for a non-negative rational. -/
def jsToFixedNonneg (d : Nat) (q : ℚ) : List Char :=
  let n : Nat := (⌊q * 10 ^ d + 1 / 2⌋).toNat
  if d = 0 then natToDec n
  else natToDec (n / 10 ^ d) ++ '.' :: padStart (natToDec (n % 10 ^ d)) d '0'

/-- `q.toFixed(d)`: ECMAScript splits off the sign first, then rounds to
the closest multiple of `10^-d`, ties toward the larger value. -/
def jsToFixed (d : Nat) (q : ℚ) : List Char :=
  if q < 0 then '-' :: jsToFixedNonneg d (-q) else jsToFixedNonneg d q

end JS

namespace Compress

/-- `QUANTIZATION_SCALE` (compress.js line 35). -/
def QUANTIZATION_SCALE : ℚ := 15

/-- `CMD_DICT` (compress.js lines 61–82). -/
def CMD_DICT : List (List Char × Nat) :=
  [("M".data, 1), ("m".data, 2), ("L".data, 3), ("l".data, 4), ("H".data, 5), ("h".data, 6),
   ("V".data, 7), ("v".data, 8), ("C".data, 9), ("c".data, 10), ("S".data, 11), ("s".data, 12),
   ("Q".data, 13), ("q".data, 14), ("T".data, 15), ("t".data, 16), ("A".data, 17),
   ("a".data, 18), ("Z".data, 19), ("z".data, 19)]

def cmdDictGet (s : List Char) : Option Nat :=
  (CMD_DICT.find? (fun p => p.1 = s)).map Prod.snd

/-- Is the token a single ASCII letter (`/^[A-Za-z]$/.test(token)`)? -/
def isLetterToken : List Char → Bool
  | [c] => JS.isAsciiLetter c
  | _ => false

/-- The token loop of `compressPathData` (compress.js lines 159–212), with
the mutable `i`, `currentX`, `currentY`, `lastCommand` state explicit.
Produces the `compressed` array of numbers (command codes and quantized
deltas alike are JavaScript numbers). -/
def compressLoop : List (List Char) → Nat → ℚ → ℚ → List Char → List Int
  | [], _, _, _, _ => []
  | token :: rest, i, curX, curY, lastCmd =>
    if isLetterToken token then
      match cmdDictGet token with
      | some code => (code : Int) :: compressLoop rest (i + 1) curX curY token
      | none => compressLoop rest (i + 1) curX curY lastCmd
    else
      match JS.jsParseFloat token with
      | none => compressLoop rest (i + 1) curX curY lastCmd
      | some num =>
        if lastCmd = JS.jsToLowerCase lastCmd ∧ lastCmd ≠ "z".data ∧ lastCmd ≠ "Z".data then
          JS.jsRound (num * QUANTIZATION_SCALE) :: compressLoop rest (i + 1) curX curY lastCmd
        else if lastCmd ≠ "z".data ∧ lastCmd ≠ "Z".data then
          if lastCmd = "H".data then
            JS.jsRound ((num - curX) * QUANTIZATION_SCALE) ::
              compressLoop rest (i + 1) num curY lastCmd
          else if lastCmd = "V".data then
            JS.jsRound ((num - curY) * QUANTIZATION_SCALE) ::
              compressLoop rest (i + 1) curX num lastCmd
          else if i % 2 = 0 then
            JS.jsRound ((num - curX) * QUANTIZATION_SCALE) ::
              compressLoop rest (i + 1) num curY lastCmd
          else
            JS.jsRound ((num - curY) * QUANTIZATION_SCALE) ::
              compressLoop rest (i + 1) curX num lastCmd
        else
          JS.jsRound (num * QUANTIZATION_SCALE) :: compressLoop rest (i + 1) curX curY lastCmd

/-- `compressPathData` (compress.js lines 145–224).  Every entry of the
`compressed` array is a JavaScript number — including the command codes,
since `CMD_DICT` maps to numbers — so the final serialization passes each
entry through `encodeSignedVarInt`; the `Buffer.from([value])` branch for
non-numbers is dead code. -/
def compressPathData (pathData : List Char) : List Nat :=
  let normalized :=
    JS.jsTrim (JS.collapseWs (JS.spaceAroundLetters (JS.collapseWs pathData)))
  let tokens := JS.splitOnSpace normalized
  ((compressLoop tokens 0 0 0 []).map encodeSignedVarInt).flatten

end Compress

namespace Decompress

/-- `QUANTIZATION_SCALE` (decompress.js line 51). -/
def QUANTIZATION_SCALE : ℚ := 15

/-- `CMD_DICT` of decompress.js (lines 28–48): code → command letter. -/
def CMD_DICT : List (Nat × List Char) :=
  [(1, "M".data), (2, "m".data), (3, "L".data), (4, "l".data), (5, "H".data), (6, "h".data),
   (7, "V".data), (8, "v".data), (9, "C".data), (10, "c".data), (11, "S".data), (12, "s".data),
   (13, "Q".data), (14, "q".data), (15, "T".data), (16, "t".data), (17, "A".data),
   (18, "a".data), (19, "Z".data)]

def cmdDictGet (n : Nat) : Option (List Char) :=
  (CMD_DICT.find? (fun p => p.1 = n)).map Prod.snd

/-- The `while (currentOffset < endOffset)` loop of `decodePathData`
(decompress.js lines 206–271), with the mutable state passed explicitly:
accumulated `pathData`, pen position `currentX`/`currentY`,
`currentCommand`, `isFirstCoordinate`, `coordCount`.  The structural
`fuel` strictly bounds the remaining passes: every pass advances
`currentOffset` by at least one byte (commands consume one byte, numbers a
varint of at least one), so the caller's `length + 1` fuel is never
exhausted and the fuel-0 branch coincides with the loop-exit result. -/
def decodePathLoopF : Nat → List Nat → Nat → Nat → List Char → ℚ → ℚ → List Char → Bool → Nat →
    Except String (List Char)
  | 0, _, _, _, pathData, _, _, _, _, _ => .ok pathData
  | fuel + 1, buffer, endOffset, currentOffset, pathData, curX, curY, currentCommand,
      isFirst, coordCount =>
    if endOffset ≤ currentOffset then .ok pathData
    else
      if 1 ≤ buffer.getD currentOffset 0 ∧ buffer.getD currentOffset 0 ≤ 19 ∧
          (cmdDictGet (buffer.getD currentOffset 0)).isSome then
        decodePathLoopF fuel buffer endOffset (currentOffset + 1)
          (pathData ++ (cmdDictGet (buffer.getD currentOffset 0)).getD [] ++ [' '])
          curX curY ((cmdDictGet (buffer.getD currentOffset 0)).getD []) true 0
      else
        match decodeSignedVarInt buffer currentOffset with
        | .error e => .error e
        | .ok (encodedNum, bytesRead) =>
          let decodedNum : ℚ := (encodedNum : ℚ) / QUANTIZATION_SCALE
          let isFirst' := if coordCount + 1 = 2 then false else isFirst
          if currentCommand = JS.jsToLowerCase currentCommand ∧
              currentCommand ≠ "z".data ∧ currentCommand ≠ "Z".data then
            decodePathLoopF fuel buffer endOffset (currentOffset + bytesRead)
              (pathData ++ JS.jsToFixed 2 decodedNum ++ [' '])
              (if coordCount % 2 = 0 then curX + decodedNum else curX)
              (if coordCount % 2 = 0 then curY else curY + decodedNum)
              currentCommand isFirst' (coordCount + 1)
          else if currentCommand = "H".data then
            decodePathLoopF fuel buffer endOffset (currentOffset + bytesRead)
              (pathData ++ JS.jsToFixed 2 (curX + decodedNum) ++ [' '])
              (curX + decodedNum) curY currentCommand isFirst' (coordCount + 1)
          else if currentCommand = "V".data then
            decodePathLoopF fuel buffer endOffset (currentOffset + bytesRead)
              (pathData ++ JS.jsToFixed 2 (curY + decodedNum) ++ [' '])
              curX (curY + decodedNum) currentCommand isFirst' (coordCount + 1)
          else if currentCommand ≠ "Z".data ∧ currentCommand ≠ "z".data then
            if coordCount % 2 = 0 then
              decodePathLoopF fuel buffer endOffset (currentOffset + bytesRead)
                (pathData ++
                  JS.jsToFixed 2 (if isFirst then decodedNum else curX + decodedNum) ++ [' '])
                (if isFirst then decodedNum else curX + decodedNum) curY
                currentCommand isFirst' (coordCount + 1)
            else
              decodePathLoopF fuel buffer endOffset (currentOffset + bytesRead)
                (pathData ++
                  JS.jsToFixed 2 (if isFirst then decodedNum else curY + decodedNum) ++ [' '])
                curX (if isFirst then decodedNum else curY + decodedNum)
                currentCommand isFirst' (coordCount + 1)
          else
            decodePathLoopF fuel buffer endOffset (currentOffset + bytesRead)
              (pathData ++ JS.jsToFixed 2 decodedNum ++ [' '])
              curX curY currentCommand isFirst' (coordCount + 1)

/-- `decodePathData` (decompress.js lines 190–274). -/
def decodePathData (buffer : List Nat) (offset length : Nat) : Except String (List Char) :=
  if buffer.length < offset + length then
    .error "Buffer overflow when reading path data"
  else
    match decodePathLoopF (length + 1) buffer (offset + length) offset [] 0 0 [] true 0 with
    | .error e => .error e
    | .ok pathData => .ok (JS.jsTrim pathData)

end Decompress

set_option maxRecDepth 10000 in
/-- C4, evaluated at the failing input: compressing the path
`'M0,0 L10,10 Z'` and decoding the result (both at scale 15) does NOT
reproduce an `M/L/Z` path through `(0,0)` and `(10,10)`.  The tokenizer
never splits `'0,0'` (parseFloat keeps only the x of each pair), and the
commands `M`(1), `L`(3), `Z`(19) are themselves zigzag-varint-encoded
(to bytes 2, 6 and 38) although the decoder expects raw code bytes 1–19 —
so the decode reads back the commands `m`, `h` and the stray number
`38 → 19/15`, producing `'m 0.00 h 10.00 1.27'`. -/
theorem C4_pathdata_roundtrip_bug :
    Compress.compressPathData "M0,0 L10,10 Z".data = [2, 0, 6, 172, 2, 38] ∧
      Decompress.decodePathData [2, 0, 6, 172, 2, 38] 0 6 =
        .ok "m 0.00 h 10.00 1.27".data := by
  constructor
  · with_unfolding_all rfl
  · with_unfolding_all rfl

namespace JS

/-- The base64 alphabet. -/
def base64Char (n : Nat) : Char :=
  "ABCDEFGHIJKLMNOPQRSTUVWXYZabcdefghijklmnopqrstuvwxyz0123456789+/".data.getD n '?'

/-- `buffer.toString('base64')` (standard alphabet, `=` padding). -/
def bufferToBase64 : List Nat → List Char
  | [] => []
  | [a] => [base64Char (a / 4), base64Char (a % 4 * 16), '=', '=']
  | [a, b] => [base64Char (a / 4), base64Char (a % 4 * 16 + b / 16), base64Char (b % 16 * 4), '=']
  | a :: b :: c :: rest =>
    base64Char (a / 4) :: base64Char (a % 4 * 16 + b / 16) ::
      base64Char (b % 16 * 4 + c / 64) :: base64Char (c % 64) :: bufferToBase64 rest

def base64Val (c : Char) : Option Nat :=
  if 'A' ≤ c ∧ c ≤ 'Z' then some (c.toNat - 65)
  else if 'a' ≤ c ∧ c ≤ 'z' then some (c.toNat - 97 + 26)
  else if '0' ≤ c ∧ c ≤ '9' then some (c.toNat - 48 + 52)
  else if c = '+' then some 62
  else if c = '/' then some 63
  else none

def base64Degroup : List Nat → List Nat
  | a :: b :: c :: d :: rest =>
    (a * 4 + b / 16) :: (b % 16 * 16 + c / 4) :: (c % 4 * 64 + d) :: base64Degroup rest
  | [a, b] => [a * 4 + b / 16]
  | [a, b, c] => [a * 4 + b / 16, b % 16 * 16 + c / 4]
  | _ => []

/-- `Buffer.from(s, 'base64')` for well-formed base64 text (the only kind
these scripts produce): non-alphabet characters and padding are skipped,
six-bit groups are repacked into bytes. -/
def bufferFromBase64 (s : List Char) : List Nat :=
  base64Degroup (s.filterMap base64Val)

/-- `parseInt(s)` (base 10): leading whitespace, optional sign, maximal
digit run; `NaN` (`none`) if there are no digits. -/
def jsParseIntDec (s : List Char) : Option Int :=
  let s1 := s.dropWhile isWsJS
  let neg := s1.headD ' ' = '-'
  let s2 := if s1.headD ' ' = '-' ∨ s1.headD ' ' = '+' then s1.drop 1 else s1
  let ds := s2.takeWhile Char.isDigit
  if ds.isEmpty then none
  else some (if neg then -(digitsValue ds : Int) else (digitsValue ds : Int))

end JS

namespace Compress

/-- `encodeVarInt` applied to a possibly-`NaN` number: `NaN` fails both the
`=== 0` test and the `>= 128` loop guard, so the single pushed `NaN`
becomes the byte 0 in `Buffer.from`. -/
def encodeVarIntNum : Option Int → List Nat
  | some v => encodeVarInt v
  | none => [0]

/-- `processViewBox` (compress.js lines 264–308). -/
def processViewBox (viewBox : List Char) : List Nat :=
  if JS.jsStartsWith "0 0 ".data viewBox then
    let parts := JS.splitOnSpace viewBox
    if parts.length = 4 then
      let w := JS.jsParseIntDec (parts.getD 2 [])
      let h := JS.jsParseIntDec (parts.getD 3 [])
      let isSquare : Bool := match w, h with
        | some wv, some hv => wv = hv
        | _, _ => false
      if isSquare then 1 :: encodeVarIntNum w
      else 2 :: (encodeVarIntNum w ++ encodeVarIntNum h)
    else processViewBoxGeneral viewBox
  else processViewBoxGeneral viewBox
where
  /-- The general and fallback cases (lines 289–307); `split(/\s+/)` is the
  single-space split after whitespace-run collapsing. -/
  processViewBoxGeneral (viewBox : List Char) : List Nat :=
    let parts := (JS.splitOnSpace (JS.collapseWs viewBox)).map JS.jsParseIntDec
    if parts.length = 4 then
      3 :: (encodeSignedVarIntNum (parts.getD 0 none) ++ encodeSignedVarIntNum (parts.getD 1 none) ++
        encodeVarIntNum (parts.getD 2 none) ++ encodeVarIntNum (parts.getD 3 none))
    else
      0 :: (encodeVarInt (viewBox.length : Int) ++ viewBox.map Char.toNat)
  /-- `encodeSignedVarInt` of a possibly-`NaN` number: `ToInt32(NaN) = 0`,
  so the zigzag of `NaN` is 0. -/
  encodeSignedVarIntNum (v : Option Int) : List Nat :=
    match v with
    | some v => encodeSignedVarInt v
    | none => encodeVarInt 0

/-- One attribute capture `attr="([^"]*)"`: scan for the literal prefix,
then require a closing quote (the regex fails without one and retries at
later positions). -/
def captureQuoted (pat : List Char) : List Char → Option (List Char)
  | [] => none
  | c :: rest =>
    if pat.isPrefixOf (c :: rest) then
      let cap := ((c :: rest).drop pat.length).takeWhile (fun ch => ch ≠ '"')
      if cap.length < ((c :: rest).drop pat.length).length then some cap
      else captureQuoted pat rest
    else captureQuoted pat rest

/-- The `/<path[^>]*>/g` scan of `extractPaths`; the fuel strictly bounds
the scan steps (one character or one whole tag per step), so
`s.length + 1` at the call site is never exhausted. -/
def extractPathTagsF : Nat → List Char → List (List Char)
  | 0, _ => []
  | _ + 1, [] => []
  | fuel + 1, c :: rest =>
    if "<path".data.isPrefixOf (c :: rest) then
      let tagBody := (c :: rest).takeWhile (fun ch => ch ≠ '>')
      if tagBody.length < (c :: rest).length then
        (tagBody ++ ['>']) :: extractPathTagsF fuel ((c :: rest).drop (tagBody.length + 1))
      else []
    else extractPathTagsF fuel rest

def extractPathTags (s : List Char) : List (List Char) := extractPathTagsF (s.length + 1) s

/-- One extracted path with its attributes (compress.js lines 246–251).
`opacity`/`strokeWidth` are the JavaScript numbers produced by
`parseFloat`, `none` standing for `NaN`; an absent attribute yields the
defaults `1` and `0`. -/
structure SvgPath where
  d : List Char
  fill : List Char
  stroke : List Char
  opacity : Option ℚ
  strokeWidth : Option ℚ

/-- `extractPaths` (compress.js lines 227–255). -/
def extractPaths (svg : List Char) : List SvgPath :=
  (extractPathTags svg).filterMap (fun tag =>
    match captureQuoted "d=\"".data tag with
    | none => none
    | some d => some
        { d := d
          fill := (captureQuoted "fill=\"".data tag).getD "none".data
          stroke := (captureQuoted "stroke=\"".data tag).getD "none".data
          opacity := match captureQuoted "opacity=\"".data tag with
            | none => some 1
            | some s => JS.jsParseFloat s
          strokeWidth := match captureQuoted "stroke-width=\"".data tag with
            | none => some 0
            | some s => JS.jsParseFloat s })

/-- `extractViewBox` (compress.js lines 258–261). -/
def extractViewBox (svg : List Char) : List Char :=
  (captureQuoted "viewBox=\"".data svg).getD "0 0 420 420".data

/-- The per-path record built by the `paths.forEach` body of `compressSVG`
(compress.js lines 330–359): colors, flags byte, optional opacity and
stroke-width varints, then the length-prefixed compressed path data. -/
def encodePathSegments (p : SvgPath) : List Nat :=
  encodeColor p.fill ++ encodeColor p.stroke ++
    [JS.jsToByte (JS.jsOr (if p.opacity ≠ some 1 then 1 else 0)
      (if p.strokeWidth ≠ some 0 then 2 else 0))] ++
    (if p.opacity ≠ some 1 then
      encodeVarIntNum (p.opacity.map (fun o => JS.jsRound (o * 100))) else []) ++
    (if p.strokeWidth ≠ some 0 then
      encodeVarIntNum (p.strokeWidth.map (fun w => JS.jsRound (w * 10))) else []) ++
    encodeVarInt ((compressPathData p.d).length : Int) ++ compressPathData p.d

/-- `compressSVG` (compress.js lines 311–375) minus the initial SVGO
`optimize` call, which is an external library invocation; the function is
applied below only to inputs already in SVGO-normal form.  Header byte
`0x03` and the path count byte, the viewBox section, the path records,
then base64. -/
def compressSVGCore (svgString : List Char) : List Char :=
  JS.bufferToBase64 ([3, (extractPaths svgString).length % 256] ++
    processViewBox (extractViewBox svgString) ++
    ((extractPaths svgString).map encodePathSegments).flatten)

end Compress

namespace Decompress

/-- The character-reading loop of viewBox string format 0: reads up to
`count` bytes starting at `start`, stopping at the end of the buffer. -/
def readChars (buffer : List Nat) (start count : Nat) : List Char :=
  ((buffer.drop start).take count).map Char.ofNat

/-- `decodeViewBox` (decompress.js lines 124–185).  Byte counts are
naturals; in format 0 the loop bound and the `bytesRead += length`
increment use `length.toNat` (the source value is nonnegative whenever it
fits in 31 bits, which holds for every buffer these scripts emit). -/
def decodeViewBox (buffer : List Nat) (offset : Nat) : Except String (List Char × Nat) :=
  if buffer.length ≤ offset then .error "Buffer overflow when reading viewBox format"
  else
    match buffer.getD offset 0 with
    | 0 => do
      let (length, lengthBytes) ← decodeVarInt buffer (offset + 1)
      pure (readChars buffer (offset + 1 + lengthBytes) length.toNat,
        1 + lengthBytes + length.toNat)
    | 1 => do
      let (size, sizeBytes) ← decodeVarInt buffer (offset + 1)
      pure ("0 0 ".data ++ JS.jsIntToString size ++ " ".data ++ JS.jsIntToString size,
        1 + sizeBytes)
    | 2 => do
      let (width, widthBytes) ← decodeVarInt buffer (offset + 1)
      let (height, heightBytes) ← decodeVarInt buffer (offset + 1 + widthBytes)
      pure ("0 0 ".data ++ JS.jsIntToString width ++ " ".data ++ JS.jsIntToString height,
        1 + widthBytes + heightBytes)
    | 3 => do
      let (x, xB) ← decodeSignedVarInt buffer (offset + 1)
      let (y, yB) ← decodeSignedVarInt buffer (offset + 1 + xB)
      let (w, wB) ← decodeVarInt buffer (offset + 1 + xB + yB)
      let (h, hB) ← decodeVarInt buffer (offset + 1 + xB + yB + wB)
      pure (JS.jsIntToString x ++ " ".data ++ JS.jsIntToString y ++ " ".data ++
        JS.jsIntToString w ++ " ".data ++ JS.jsIntToString h, 1 + xB + yB + wB + hB)
    | _ => .error "Unknown viewBox format"

/-- The fields read by the head of the path loop body of `decompressSVG`
(decompress.js lines 303–333): colors, flags byte, optional opacity and
stroke width, path data length.  `bytesRead` counts everything up to and
including the length varint. -/
structure RecordHead where
  fill : List Char
  stroke : List Char
  opacity : ℚ
  strokeWidth : ℚ
  pathDataLength : Int
  bytesRead : Nat

/-- Decompress.js lines 303–333.  The flags byte is read without a bounds
check: past the end `buffer[i]` is `undefined` and `undefined & k` is 0,
which `List.getD _ _ 0` reproduces. -/
def decodeRecordHead (buffer : List Nat) (offset : Nat) : Except String RecordHead := do
  let (fill, fillBytes) ← decodeColor buffer offset
  let (stroke, strokeBytes) ← decodeColor buffer (offset + fillBytes)
  let flags : Int := (buffer.getD (offset + fillBytes + strokeBytes) 0 : Nat)
  let o1 := offset + fillBytes + strokeBytes + 1
  let (opacity, o2) ← if JS.jsAnd flags 1 > 0 then do
      let (v, b) ← decodeVarInt buffer o1
      pure (((v : ℚ) / 100, o1 + b) : ℚ × Nat)
    else pure ((1 : ℚ), o1)
  let (strokeWidth, o3) ← if JS.jsAnd flags 2 > 0 then do
      let (v, b) ← decodeVarInt buffer o2
      pure (((v : ℚ) / 10, o2 + b) : ℚ × Nat)
    else pure ((0 : ℚ), o2)
  let (pathDataLength, lengthBytes) ← decodeVarInt buffer o3
  pure ⟨fill, stroke, opacity, strokeWidth, pathDataLength, o3 + lengthBytes - offset⟩

/-- One full iteration of the path loop body (decompress.js lines
303–356): the record head, the path data, and the assembled
`<path .../>` element; returns the element and the bytes consumed. -/
def decodePathEntry (buffer : List Nat) (offset : Nat) : Except String (List Char × Nat) := do
  let h ← decodeRecordHead buffer offset
  let pathData ← decodePathData buffer (offset + h.bytesRead) h.pathDataLength.toNat
  pure ("<path d=\"".data ++ pathData ++ "\" fill=\"".data ++ h.fill ++ "\"".data ++
      (if h.stroke ≠ "none".data then
        " stroke=\"".data ++ h.stroke ++ "\"".data ++
          (if h.strokeWidth > 0 then
            " stroke-width=\"".data ++ JS.jsToFixed 1 h.strokeWidth ++ "\"".data
          else [])
      else []) ++
      (if h.opacity < 1 then " opacity=\"".data ++ JS.jsToFixed 2 h.opacity ++ "\"".data
      else []) ++
      "/>".data,
    h.bytesRead + h.pathDataLength.toNat)

/-- The path loop of `decompressSVG` (decompress.js lines 301–361),
structural on the remaining iteration count `i < pathCount`; the guard
`currentOffset < buffer.length` and the per-iteration `try … catch →
break` are the other two exits. -/
def decompressPathsLoop : Nat → List Nat → Nat → List (List Char) → List (List Char)
  | 0, _, _, acc => acc
  | i + 1, buffer, off, acc =>
    if buffer.length ≤ off then acc
    else
      match decodePathEntry buffer off with
      | .error _ => acc
      | .ok (el, n) => decompressPathsLoop i buffer (off + n) (acc ++ [el])

/-- The hard-coded fallback SVG of `decompressSVG` (decompress.js lines
374–377). -/
def fallbackSVG : List Char :=
  ("<svg xmlns=\"http://www.w3.org/2000/svg\" viewBox=\"0 0 100 100\">\n" ++
    "  <path d=\"M10 10L90 90M10 90L90 10\" stroke=\"#FF0000\" stroke-width=\"5\" fill=\"none\"/>\n" ++
    "  <circle cx=\"50\" cy=\"50\" r=\"40\" stroke=\"#000000\" fill=\"none\"/>\n" ++
    "</svg>").data

/-- `decompressSVG` (decompress.js lines 277–380): base64 decode, header,
viewBox, path loop, SVG assembly; any error escaping to the outer catch
returns `fallbackSVG`. -/
def decompressSVG (compressedData : List Char) : List Char :=
  let buffer := JS.bufferFromBase64 compressedData
  match (do
    if buffer.length < 2 then Except.error "Invalid compressed data: too short"
    else do
      let (viewBox, viewBoxBytes) ← decodeViewBox buffer 2
      let paths := decompressPathsLoop (buffer.getD 1 0) buffer (2 + viewBoxBytes) []
      pure ("<svg xmlns=\"http://www.w3.org/2000/svg\" viewBox=\"".data ++ viewBox ++
        "\">\n  ".data ++ List.intercalate "\n  ".data paths ++ "\n</svg>".data)
    : Except String (List Char)) with
  | .ok svg => svg
  | .error _ => fallbackSVG

end Decompress

set_option maxRecDepth 10000 in
/-- C7, refuted at a concrete input.  The claim asserts that truncating
any valid compressed document by one byte makes `decompressSVG` return
the hard-coded fallback SVG.  Take the minimal one-path SVG
`<svg viewBox="0 0 420 420"><path d="M0,0 L10,10 Z" fill="#FF0000"/></svg>`;
`compressSVGCore` produces the valid document
`AwEBpAMEAAAGAgAGrAIm` (bytes `[3,1,1,164,3,4,0,0,6,2,0,6,172,2,38]`).
Dropping its last byte truncates inside the path record, the decode error
is caught by the per-path `try { … } catch { break }`, and `decompressSVG`
returns a partial document — the SVG shell with zero paths — which is not
the fallback SVG. -/
theorem C7_counterexample :
    Decompress.decompressSVG
        (JS.bufferToBase64 ((JS.bufferFromBase64 (Compress.compressSVGCore
          "<svg viewBox=\"0 0 420 420\"><path d=\"M0,0 L10,10 Z\" fill=\"#FF0000\"/></svg>".data)).dropLast)) =
      "<svg xmlns=\"http://www.w3.org/2000/svg\" viewBox=\"0 0 420 420\">\n  \n</svg>".data ∧
    "<svg xmlns=\"http://www.w3.org/2000/svg\" viewBox=\"0 0 420 420\">\n  \n</svg>".data ≠
      Decompress.fallbackSVG := by
  refine ⟨by with_unfolding_all rfl, by decide⟩

set_option maxRecDepth 10000 in
/-- C7, amended.  One-byte truncation of a valid compressed document makes
the decoder throw internally and `decompressSVG` still return normally,
but which SVG comes back depends on where the truncation lands: inside
the path-record region the per-path catch breaks out of the loop and a
partial document is returned (first conjunct: the truncated one-path
document yields the path-less SVG shell, which differs from the
fallback); only an error raised before the path loop — header or viewBox —
reaches the outer catch and yields the hard-coded fallback (second
conjunct: the truncated zero-path document `AwABpAM=`, bytes
`[3,0,1,164,3]`, loses the final viewBox varint byte and falls back). -/
theorem C7_amended_truncation_behavior :
    (Decompress.decompressSVG
        (JS.bufferToBase64 ((JS.bufferFromBase64 (Compress.compressSVGCore
          "<svg viewBox=\"0 0 420 420\"><path d=\"M0,0 L10,10 Z\" fill=\"#FF0000\"/></svg>".data)).dropLast)) ≠
      Decompress.fallbackSVG) ∧
    Decompress.decompressSVG
        (JS.bufferToBase64 ((JS.bufferFromBase64 (Compress.compressSVGCore
          "<svg viewBox=\"0 0 420 420\"></svg>".data)).dropLast)) =
      Decompress.fallbackSVG := by
  constructor
  · with_unfolding_all decide
  · with_unfolding_all rfl

/-- Indexing into the middle chunk of a three-part buffer. -/
theorem getD_append_idx (pre xs rest : List Nat) (i : Nat) (h : i < xs.length) :
    (pre ++ xs ++ rest).getD (pre.length + i) 0 = xs.getD i 0 := by
  rw [List.append_assoc, List.getD_eq_getElem?_getD,
    List.getElem?_append_right (by omega),
    show pre.length + i - pre.length = i from by omega,
    List.getElem?_append_left h, ← List.getD_eq_getElem?_getD]

/-- Unsigned varint round trip in context: decoding at the start of the
encoded group inside a larger buffer returns the value and consumes
exactly the group. -/
theorem varint_decode_ctx (n : Nat) (h : n < 2147483648) (pre rest : List Nat) :
    decodeVarInt (pre ++ Compress.encodeVarInt (n : Int) ++ rest) pre.length =
      .ok ((n : Int), (Compress.encodeVarInt (n : Int)).length) := by
  by_cases h0 : n = 0
  · subst h0
    have henc : Compress.encodeVarInt ((0 : Nat) : Int) = [0] := by
      simp [Compress.encodeVarInt]
    rw [henc]
    show decodeVarIntLoop (pre ++ [0] ++ rest) pre.length 0 0 0 = _
    rw [decodeVarIntLoop_unfold]
    have hlen : ¬ ((pre ++ [0] ++ rest).length ≤ pre.length + 0) := by
      simp [List.length_append]
    rw [if_neg hlen]
    have hget : (pre ++ [0] ++ rest).getD (pre.length + 0) 0 = 0 := by
      simpa using getD_append_cons pre 0 rest
    rw [hget]
    rw [if_neg (show ¬ (JS.jsAnd (((0 : Nat) : Nat) : Int) 128 ≠ 0) from by decide)]
    decide
  · rw [Compress.encodeVarInt]
    have hne : ((n : Nat) : Int) ≠ 0 := by exact_mod_cast h0
    rw [if_neg hne]
    have hmain := decodeLoop_encodeBytes n pre rest 0 0 (by norm_num) (by norm_num)
      (by norm_num; omega)
    simpa [decodeVarInt] using hmain

/-- Every index stored in the compressor's color dictionary is below the
254 sentinel and is a key of the decompressor's dictionary. -/
theorem compress_dict_codes_ok :
    ∀ p ∈ Compress.COLOR_DICT, p.2 < 254 ∧ (Decompress.colorDictGet p.2).isSome := by
  decide

/-- `decodeColor` consumes exactly the bytes `encodeColor` emitted, in any
surrounding buffer: the dictionary branches produce one byte whose code
the decoder's dictionary accepts, and the 254 branch produces four bytes
read back as explicit RGB. -/
theorem decodeColor_encodeColor_ctx (c : List Char) (pre rest : List Nat) :
    ∃ s, Decompress.decodeColor (pre ++ Compress.encodeColor c ++ rest) pre.length =
      .ok (s, (Compress.encodeColor c).length) := by
  rw [Compress.encodeColor]
  by_cases hnone : c = [] ∨ c = ['n', 'o', 'n', 'e']
  · rw [if_pos hnone]
    refine ⟨"none".data, ?_⟩
    rw [Decompress.decodeColor]
    have hlen : ¬ ((pre ++ [0] ++ rest).length ≤ pre.length) := by
      simp [List.length_append]
    rw [if_neg hlen]
    have hget : (pre ++ [0] ++ rest).getD pre.length 0 = 0 := by
      simpa using getD_append_cons pre 0 rest
    rw [hget]
    rw [if_pos (show (0 : Nat) < 254 ∧ (Decompress.colorDictGet 0).isSome from by decide),
      if_pos rfl]
    rfl
  · rw [if_neg hnone]
    by_cases hdict : Compress.truthy (Compress.colorDictGet (Compress.encodeColorHex c))
    · rw [if_pos hdict]
      rcases hfind : Compress.COLOR_DICT.find? (fun p => p.1 = Compress.encodeColorHex c)
        with _ | p
      · exfalso
        rw [Compress.colorDictGet, hfind] at hdict
        simp [Compress.truthy] at hdict
      · have hget' : Compress.colorDictGet (Compress.encodeColorHex c) = some p.2 := by
          rw [Compress.colorDictGet, hfind]
          rfl
        have hmem : p ∈ Compress.COLOR_DICT := List.mem_of_find?_eq_some hfind
        have hok := compress_dict_codes_ok p hmem
        have hne0 : p.2 ≠ 0 := by
          rw [hget'] at hdict
          simpa [Compress.truthy] using hdict
        rw [hget']
        simp only [Option.getD_some]
        refine ⟨'#' :: (Decompress.colorDictGet p.2).getD [], ?_⟩
        rw [Decompress.decodeColor]
        have hlen : ¬ ((pre ++ [p.2] ++ rest).length ≤ pre.length) := by
          simp [List.length_append]
        rw [if_neg hlen]
        have hget : (pre ++ [p.2] ++ rest).getD pre.length 0 = p.2 := by
          simpa using getD_append_cons pre p.2 rest
        rw [hget]
        rw [if_pos ⟨hok.1, hok.2⟩, if_neg hne0]
        rfl
    · rw [if_neg hdict]
      set b1 := JS.byteOfNum (JS.parseIntHex (JS.substring (Compress.encodeColorHex c) 0 2))
      set b2 := JS.byteOfNum (JS.parseIntHex (JS.substring (Compress.encodeColorHex c) 2 4))
      set b3 := JS.byteOfNum (JS.parseIntHex (JS.substring (Compress.encodeColorHex c) 4 6))
      refine ⟨JS.jsToUpperCase ('#' ::
          (JS.padStart (JS.natToHex b1) 2 '0' ++ JS.padStart (JS.natToHex b2) 2 '0' ++
           JS.padStart (JS.natToHex b3) 2 '0')), ?_⟩
      rw [Decompress.decodeColor]
      have hlen : ¬ ((pre ++ [254, b1, b2, b3] ++ rest).length ≤ pre.length) := by
        simp [List.length_append]
      rw [if_neg hlen]
      have hget0 : (pre ++ [254, b1, b2, b3] ++ rest).getD pre.length 0 = 254 := by
        simpa using getD_append_idx pre [254, b1, b2, b3] rest 0 (by norm_num)
      have hget1 : (pre ++ [254, b1, b2, b3] ++ rest).getD (pre.length + 1) 0 = b1 :=
        getD_append_idx pre [254, b1, b2, b3] rest 1 (by norm_num)
      have hget2 : (pre ++ [254, b1, b2, b3] ++ rest).getD (pre.length + 2) 0 = b2 :=
        getD_append_idx pre [254, b1, b2, b3] rest 2 (by norm_num)
      have hget3 : (pre ++ [254, b1, b2, b3] ++ rest).getD (pre.length + 3) 0 = b3 :=
        getD_append_idx pre [254, b1, b2, b3] rest 3 (by norm_num)
      rw [hget0]
      rw [if_neg (show ¬ ((254 : Nat) < 254 ∧ (Decompress.colorDictGet 254).isSome) from by
        norm_num), if_pos rfl]
      have hlen3 : ¬ ((pre ++ [254, b1, b2, b3] ++ rest).length ≤ pre.length + 3) := by
        simp [List.length_append]
      rw [if_neg hlen3, hget1, hget2, hget3]
      rfl

set_option maxHeartbeats 1000000 in
/-- C10: for every path record written by `compressSVG` — any fill and
stroke strings, any path data, any JavaScript-number opacity `o` and
stroke width `w` whose scaled roundings `round(o*100)` and `round(w*10)`
are nonnegative and below `2^31`, and whose compressed path data fits a
varint — the flags byte sitting right after the two color tokens equals
`(o ≠ 1 ? 1 : 0) + (w ≠ 0 ? 2 : 0)` (bit 0 iff opacity differs from 1,
bit 1 iff stroke width differs from 0); and the decoder record head
reads the opacity varint exactly when bit 0 is set (yielding
`round(o*100)/100`, else the default 1), reads the stroke-width varint
exactly when bit 1 is set (yielding `round(w*10)/10`, else the default
0), then reads the path-data length, consuming exactly the bytes the
encoder wrote for colors, flags, optional fields and length. -/
theorem C10_flags_and_optional_fields (fill stroke d : List Char) (o w : ℚ) (rest : List Nat)
    (ho0 : 0 ≤ JS.jsRound (o * 100)) (ho1 : JS.jsRound (o * 100) < 2147483648)
    (hw0 : 0 ≤ JS.jsRound (w * 10)) (hw1 : JS.jsRound (w * 10) < 2147483648)
    (hd : (Compress.compressPathData d).length < 2147483648) :
    (Compress.encodePathSegments ⟨d, fill, stroke, some o, some w⟩).getD
        ((Compress.encodeColor fill).length + (Compress.encodeColor stroke).length) 0 =
      (if o ≠ 1 then 1 else 0) + (if w ≠ 0 then 2 else 0) ∧
    ∃ f s,
      Decompress.decodeRecordHead
          (Compress.encodePathSegments ⟨d, fill, stroke, some o, some w⟩ ++ rest) 0 =
        .ok ⟨f, s,
          (if o ≠ 1 then (JS.jsRound (o * 100) : ℚ) / 100 else 1),
          (if w ≠ 0 then (JS.jsRound (w * 10) : ℚ) / 10 else 0),
          ((Compress.compressPathData d).length : Int),
          (Compress.encodeColor fill).length + (Compress.encodeColor stroke).length + 1 +
            (if o ≠ 1 then (Compress.encodeVarInt (JS.jsRound (o * 100))).length else 0) +
            (if w ≠ 0 then (Compress.encodeVarInt (JS.jsRound (w * 10))).length else 0) +
            (Compress.encodeVarInt ((Compress.compressPathData d).length : Int)).length⟩ := by
  simp only [Compress.encodePathSegments, Option.map_some', Compress.encodeVarIntNum]
  by_cases hco : o = 1 <;> by_cases hcw : w = 0
  · -- opacity 1, strokeWidth 0: no optional fields, flags byte 0
    subst hco; subst hcw
    simp only [ne_eq, Option.some.injEq, not_true_eq_false, if_false, List.append_nil]
    generalize he1 : Compress.encodeColor fill = e1
    generalize he2 : Compress.encodeColor stroke = e2
    generalize hpd : Compress.compressPathData d = pd
    rw [hpd] at hd
    generalize hV3 : Compress.encodeVarInt ((pd.length : Nat) : Int) = V3
    rw [show JS.jsToByte (JS.jsOr 0 0) = 0 from by decide]
    constructor
    · rw [show e1 ++ e2 ++ [0] ++ V3 ++ pd = (e1 ++ e2) ++ [0] ++ (V3 ++ pd) from by
        simp [List.append_assoc]]
      rw [show e1.length + e2.length = (e1 ++ e2).length + 0 from by simp]
      rw [getD_append_idx (e1 ++ e2) [0] (V3 ++ pd) 0 (by norm_num)]
      simp
    · rw [show e1 ++ e2 ++ [0] ++ V3 ++ pd ++ rest =
          e1 ++ (e2 ++ ([0] ++ (V3 ++ (pd ++ rest)))) from by simp [List.append_assoc]]
      obtain ⟨fv, hf⟩ := decodeColor_encodeColor_ctx fill [] (e2 ++ ([0] ++ (V3 ++ (pd ++ rest))))
      rw [he1] at hf
      simp only [List.nil_append, List.length_nil] at hf
      obtain ⟨sv, hs⟩ := decodeColor_encodeColor_ctx stroke e1 ([0] ++ (V3 ++ (pd ++ rest)))
      rw [he2] at hs
      refine ⟨fv, sv, ?_⟩
      simp only [Decompress.decodeRecordHead]
      rw [hf]
      simp only [Bind.bind, Except.bind, Nat.zero_add]
      rw [show e1 ++ (e2 ++ ([0] ++ (V3 ++ (pd ++ rest)))) =
          (e1 ++ e2) ++ ([0] ++ (V3 ++ (pd ++ rest))) from by simp [List.append_assoc]]
      rw [hs]
      simp only [Bind.bind, Except.bind]
      rw [show (e1 ++ e2) ++ ([0] ++ (V3 ++ (pd ++ rest))) =
          ((e1 ++ e2) ++ [0]) ++ (V3 ++ (pd ++ rest)) from by simp [List.append_assoc]]
      rw [show e1.length + e2.length = (e1 ++ e2).length + 0 from by simp]
      rw [getD_append_idx (e1 ++ e2) [0] (V3 ++ (pd ++ rest)) 0 (by norm_num)]
      rw [show (([0] : List Nat).getD 0 0) = 0 from rfl]
      rw [if_neg (show ¬ (JS.jsAnd (((0 : Nat) : Nat) : Int) 1 > 0) from by decide)]
      simp only [Pure.pure, Except.pure, Bind.bind, Except.bind]
      rw [if_neg (show ¬ (JS.jsAnd (((0 : Nat) : Nat) : Int) 2 > 0) from by decide)]
      have hv3 := varint_decode_ctx pd.length hd ((e1 ++ e2) ++ [0]) (pd ++ rest)
      rw [hV3] at hv3
      simp only [List.length_append, List.length_singleton] at hv3
      rw [show ((e1 ++ e2) ++ [0]) ++ (V3 ++ (pd ++ rest)) =
          (((e1 ++ e2) ++ [0]) ++ V3) ++ (pd ++ rest) from by simp [List.append_assoc]]
      rw [show (e1 ++ e2).length + 0 + 1 = e1.length + e2.length + 1 from by simp]
      rw [hv3]
      simp only [Pure.pure, Except.pure]
      simp [List.length_append]
  · -- opacity 1, strokeWidth present: flags byte 2, one optional varint
    subst hco
    simp only [ne_eq, Option.some.injEq, not_true_eq_false, if_false, hcw,
      not_false_eq_true, if_true, Option.map_some', List.append_nil]
    rw [show JS.jsRound (w * 10) = (((JS.jsRound (w * 10)).toNat : Nat) : Int) from
      (Int.toNat_of_nonneg hw0).symm]
    have hwb : (JS.jsRound (w * 10)).toNat < 2147483648 := by omega
    generalize hvw : (JS.jsRound (w * 10)).toNat = vw
    rw [hvw] at hwb
    generalize he1 : Compress.encodeColor fill = e1
    generalize he2 : Compress.encodeColor stroke = e2
    generalize hpd : Compress.compressPathData d = pd
    rw [hpd] at hd
    generalize hV2 : Compress.encodeVarInt ((vw : Nat) : Int) = V2
    generalize hV3 : Compress.encodeVarInt ((pd.length : Nat) : Int) = V3
    rw [show JS.jsToByte (JS.jsOr 0 2) = 2 from by decide]
    constructor
    · rw [show e1 ++ e2 ++ [2] ++ V2 ++ V3 ++ pd = (e1 ++ e2) ++ [2] ++ (V2 ++ (V3 ++ pd))
        from by simp [List.append_assoc]]
      rw [show e1.length + e2.length = (e1 ++ e2).length + 0 from by simp]
      rw [getD_append_idx (e1 ++ e2) [2] (V2 ++ (V3 ++ pd)) 0 (by norm_num)]
      simp
    · rw [show e1 ++ e2 ++ [2] ++ V2 ++ V3 ++ pd ++ rest =
          e1 ++ (e2 ++ ([2] ++ (V2 ++ (V3 ++ (pd ++ rest))))) from by simp [List.append_assoc]]
      obtain ⟨fv, hf⟩ := decodeColor_encodeColor_ctx fill []
        (e2 ++ ([2] ++ (V2 ++ (V3 ++ (pd ++ rest)))))
      rw [he1] at hf
      simp only [List.nil_append, List.length_nil] at hf
      obtain ⟨sv, hs⟩ := decodeColor_encodeColor_ctx stroke e1
        ([2] ++ (V2 ++ (V3 ++ (pd ++ rest))))
      rw [he2] at hs
      refine ⟨fv, sv, ?_⟩
      simp only [Decompress.decodeRecordHead]
      rw [hf]
      simp only [Bind.bind, Except.bind, Nat.zero_add]
      rw [show e1 ++ (e2 ++ ([2] ++ (V2 ++ (V3 ++ (pd ++ rest))))) =
          (e1 ++ e2) ++ ([2] ++ (V2 ++ (V3 ++ (pd ++ rest)))) from by simp [List.append_assoc]]
      rw [hs]
      simp only [Bind.bind, Except.bind]
      rw [show (e1 ++ e2) ++ ([2] ++ (V2 ++ (V3 ++ (pd ++ rest)))) =
          ((e1 ++ e2) ++ [2]) ++ (V2 ++ (V3 ++ (pd ++ rest))) from by simp [List.append_assoc]]
      rw [show e1.length + e2.length = (e1 ++ e2).length + 0 from by simp]
      rw [getD_append_idx (e1 ++ e2) [2] (V2 ++ (V3 ++ (pd ++ rest))) 0 (by norm_num)]
      rw [show (([2] : List Nat).getD 0 0) = 2 from rfl]
      rw [if_neg (show ¬ (JS.jsAnd (((2 : Nat) : Nat) : Int) 1 > 0) from by decide)]
      simp only [Pure.pure, Except.pure, Bind.bind, Except.bind]
      rw [if_pos (show JS.jsAnd (((2 : Nat) : Nat) : Int) 2 > 0 from by decide)]
      have hv2 := varint_decode_ctx vw hwb ((e1 ++ e2) ++ [2]) (V3 ++ (pd ++ rest))
      rw [hV2] at hv2
      simp only [List.length_append, List.length_singleton] at hv2
      rw [show ((e1 ++ e2) ++ [2]) ++ (V2 ++ (V3 ++ (pd ++ rest))) =
          (((e1 ++ e2) ++ [2]) ++ V2) ++ (V3 ++ (pd ++ rest)) from by simp [List.append_assoc]]
      rw [show (e1 ++ e2).length + 0 + 1 = e1.length + e2.length + 1 from by simp]
      rw [hv2]
      simp only [Pure.pure, Except.pure, Bind.bind, Except.bind]
      have hv3 := varint_decode_ctx pd.length hd (((e1 ++ e2) ++ [2]) ++ V2) (pd ++ rest)
      rw [hV3] at hv3
      simp only [List.length_append, List.length_singleton] at hv3
      rw [show (((e1 ++ e2) ++ [2]) ++ V2) ++ (V3 ++ (pd ++ rest)) =
          ((((e1 ++ e2) ++ [2]) ++ V2) ++ V3) ++ (pd ++ rest) from by simp [List.append_assoc]]
      rw [hv3]
      simp only [Pure.pure, Except.pure]
      simp [List.length_append]
  · -- opacity present, strokeWidth 0: flags byte 1, one optional varint
    subst hcw
    simp only [ne_eq, Option.some.injEq, not_true_eq_false, if_false, hco,
      not_false_eq_true, if_true, Option.map_some', List.append_nil]
    rw [show JS.jsRound (o * 100) = (((JS.jsRound (o * 100)).toNat : Nat) : Int) from
      (Int.toNat_of_nonneg ho0).symm]
    have hob : (JS.jsRound (o * 100)).toNat < 2147483648 := by omega
    generalize hvo : (JS.jsRound (o * 100)).toNat = vo
    rw [hvo] at hob
    generalize he1 : Compress.encodeColor fill = e1
    generalize he2 : Compress.encodeColor stroke = e2
    generalize hpd : Compress.compressPathData d = pd
    rw [hpd] at hd
    generalize hV1 : Compress.encodeVarInt ((vo : Nat) : Int) = V1
    generalize hV3 : Compress.encodeVarInt ((pd.length : Nat) : Int) = V3
    rw [show JS.jsToByte (JS.jsOr 1 0) = 1 from by decide]
    constructor
    · rw [show e1 ++ e2 ++ [1] ++ V1 ++ V3 ++ pd = (e1 ++ e2) ++ [1] ++ (V1 ++ (V3 ++ pd))
        from by simp [List.append_assoc]]
      rw [show e1.length + e2.length = (e1 ++ e2).length + 0 from by simp]
      rw [getD_append_idx (e1 ++ e2) [1] (V1 ++ (V3 ++ pd)) 0 (by norm_num)]
      simp
    · rw [show e1 ++ e2 ++ [1] ++ V1 ++ V3 ++ pd ++ rest =
          e1 ++ (e2 ++ ([1] ++ (V1 ++ (V3 ++ (pd ++ rest))))) from by simp [List.append_assoc]]
      obtain ⟨fv, hf⟩ := decodeColor_encodeColor_ctx fill []
        (e2 ++ ([1] ++ (V1 ++ (V3 ++ (pd ++ rest)))))
      rw [he1] at hf
      simp only [List.nil_append, List.length_nil] at hf
      obtain ⟨sv, hs⟩ := decodeColor_encodeColor_ctx stroke e1
        ([1] ++ (V1 ++ (V3 ++ (pd ++ rest))))
      rw [he2] at hs
      refine ⟨fv, sv, ?_⟩
      simp only [Decompress.decodeRecordHead]
      rw [hf]
      simp only [Bind.bind, Except.bind, Nat.zero_add]
      rw [show e1 ++ (e2 ++ ([1] ++ (V1 ++ (V3 ++ (pd ++ rest))))) =
          (e1 ++ e2) ++ ([1] ++ (V1 ++ (V3 ++ (pd ++ rest)))) from by simp [List.append_assoc]]
      rw [hs]
      simp only [Bind.bind, Except.bind]
      rw [show (e1 ++ e2) ++ ([1] ++ (V1 ++ (V3 ++ (pd ++ rest)))) =
          ((e1 ++ e2) ++ [1]) ++ (V1 ++ (V3 ++ (pd ++ rest))) from by simp [List.append_assoc]]
      rw [show e1.length + e2.length = (e1 ++ e2).length + 0 from by simp]
      rw [getD_append_idx (e1 ++ e2) [1] (V1 ++ (V3 ++ (pd ++ rest))) 0 (by norm_num)]
      rw [show (([1] : List Nat).getD 0 0) = 1 from rfl]
      rw [if_pos (show JS.jsAnd (((1 : Nat) : Nat) : Int) 1 > 0 from by decide)]
      have hv1 := varint_decode_ctx vo hob ((e1 ++ e2) ++ [1]) (V3 ++ (pd ++ rest))
      rw [hV1] at hv1
      simp only [List.length_append, List.length_singleton] at hv1
      rw [show ((e1 ++ e2) ++ [1]) ++ (V1 ++ (V3 ++ (pd ++ rest))) =
          (((e1 ++ e2) ++ [1]) ++ V1) ++ (V3 ++ (pd ++ rest)) from by simp [List.append_assoc]]
      rw [show (e1 ++ e2).length + 0 + 1 = e1.length + e2.length + 1 from by simp]
      rw [hv1]
      simp only [Pure.pure, Except.pure, Bind.bind, Except.bind]
      rw [if_neg (show ¬ (JS.jsAnd (((1 : Nat) : Nat) : Int) 2 > 0) from by decide)]
      have hv3 := varint_decode_ctx pd.length hd (((e1 ++ e2) ++ [1]) ++ V1) (pd ++ rest)
      rw [hV3] at hv3
      simp only [List.length_append, List.length_singleton] at hv3
      rw [show (((e1 ++ e2) ++ [1]) ++ V1) ++ (V3 ++ (pd ++ rest)) =
          ((((e1 ++ e2) ++ [1]) ++ V1) ++ V3) ++ (pd ++ rest) from by simp [List.append_assoc]]
      rw [hv3]
      simp only [Pure.pure, Except.pure]
      simp [List.length_append]
  · -- both optional fields present: flags byte 3
    simp only [ne_eq, Option.some.injEq, hco, hcw, not_false_eq_true, if_true, Option.map_some']
    rw [show JS.jsRound (o * 100) = (((JS.jsRound (o * 100)).toNat : Nat) : Int) from
      (Int.toNat_of_nonneg ho0).symm]
    rw [show JS.jsRound (w * 10) = (((JS.jsRound (w * 10)).toNat : Nat) : Int) from
      (Int.toNat_of_nonneg hw0).symm]
    have hob : (JS.jsRound (o * 100)).toNat < 2147483648 := by omega
    have hwb : (JS.jsRound (w * 10)).toNat < 2147483648 := by omega
    generalize hvo : (JS.jsRound (o * 100)).toNat = vo
    generalize hvw : (JS.jsRound (w * 10)).toNat = vw
    rw [hvo] at hob
    rw [hvw] at hwb
    generalize he1 : Compress.encodeColor fill = e1
    generalize he2 : Compress.encodeColor stroke = e2
    generalize hpd : Compress.compressPathData d = pd
    rw [hpd] at hd
    generalize hV1 : Compress.encodeVarInt ((vo : Nat) : Int) = V1
    generalize hV2 : Compress.encodeVarInt ((vw : Nat) : Int) = V2
    generalize hV3 : Compress.encodeVarInt ((pd.length : Nat) : Int) = V3
    rw [show JS.jsToByte (JS.jsOr 1 2) = 3 from by decide]
    constructor
    · rw [show e1 ++ e2 ++ [3] ++ V1 ++ V2 ++ V3 ++ pd =
          (e1 ++ e2) ++ [3] ++ (V1 ++ (V2 ++ (V3 ++ pd))) from by simp [List.append_assoc]]
      rw [show e1.length + e2.length = (e1 ++ e2).length + 0 from by simp]
      rw [getD_append_idx (e1 ++ e2) [3] (V1 ++ (V2 ++ (V3 ++ pd))) 0 (by norm_num)]
      simp
    · rw [show e1 ++ e2 ++ [3] ++ V1 ++ V2 ++ V3 ++ pd ++ rest =
          e1 ++ (e2 ++ ([3] ++ (V1 ++ (V2 ++ (V3 ++ (pd ++ rest)))))) from by
        simp [List.append_assoc]]
      obtain ⟨fv, hf⟩ := decodeColor_encodeColor_ctx fill []
        (e2 ++ ([3] ++ (V1 ++ (V2 ++ (V3 ++ (pd ++ rest))))))
      rw [he1] at hf
      simp only [List.nil_append, List.length_nil] at hf
      obtain ⟨sv, hs⟩ := decodeColor_encodeColor_ctx stroke e1
        ([3] ++ (V1 ++ (V2 ++ (V3 ++ (pd ++ rest)))))
      rw [he2] at hs
      refine ⟨fv, sv, ?_⟩
      simp only [Decompress.decodeRecordHead]
      rw [hf]
      simp only [Bind.bind, Except.bind, Nat.zero_add]
      rw [show e1 ++ (e2 ++ ([3] ++ (V1 ++ (V2 ++ (V3 ++ (pd ++ rest)))))) =
          (e1 ++ e2) ++ ([3] ++ (V1 ++ (V2 ++ (V3 ++ (pd ++ rest))))) from by
        simp [List.append_assoc]]
      rw [hs]
      simp only [Bind.bind, Except.bind]
      rw [show (e1 ++ e2) ++ ([3] ++ (V1 ++ (V2 ++ (V3 ++ (pd ++ rest))))) =
          ((e1 ++ e2) ++ [3]) ++ (V1 ++ (V2 ++ (V3 ++ (pd ++ rest)))) from by
        simp [List.append_assoc]]
      rw [show e1.length + e2.length = (e1 ++ e2).length + 0 from by simp]
      rw [getD_append_idx (e1 ++ e2) [3] (V1 ++ (V2 ++ (V3 ++ (pd ++ rest)))) 0 (by norm_num)]
      rw [show (([3] : List Nat).getD 0 0) = 3 from rfl]
      rw [if_pos (show JS.jsAnd (((3 : Nat) : Nat) : Int) 1 > 0 from by decide)]
      have hv1 := varint_decode_ctx vo hob ((e1 ++ e2) ++ [3]) (V2 ++ (V3 ++ (pd ++ rest)))
      rw [hV1] at hv1
      simp only [List.length_append, List.length_singleton] at hv1
      rw [show ((e1 ++ e2) ++ [3]) ++ (V1 ++ (V2 ++ (V3 ++ (pd ++ rest)))) =
          (((e1 ++ e2) ++ [3]) ++ V1) ++ (V2 ++ (V3 ++ (pd ++ rest))) from by
        simp [List.append_assoc]]
      rw [show (e1 ++ e2).length + 0 + 1 = e1.length + e2.length + 1 from by simp]
      rw [hv1]
      simp only [Pure.pure, Except.pure, Bind.bind, Except.bind]
      rw [if_pos (show JS.jsAnd (((3 : Nat) : Nat) : Int) 2 > 0 from by decide)]
      have hv2 := varint_decode_ctx vw hwb (((e1 ++ e2) ++ [3]) ++ V1) (V3 ++ (pd ++ rest))
      rw [hV2] at hv2
      simp only [List.length_append, List.length_singleton] at hv2
      rw [show (((e1 ++ e2) ++ [3]) ++ V1) ++ (V2 ++ (V3 ++ (pd ++ rest))) =
          ((((e1 ++ e2) ++ [3]) ++ V1) ++ V2) ++ (V3 ++ (pd ++ rest)) from by
        simp [List.append_assoc]]
      rw [hv2]
      simp only [Pure.pure, Except.pure, Bind.bind, Except.bind]
      have hv3 := varint_decode_ctx pd.length hd ((((e1 ++ e2) ++ [3]) ++ V1) ++ V2)
        (pd ++ rest)
      rw [hV3] at hv3
      simp only [List.length_append, List.length_singleton] at hv3
      rw [show ((((e1 ++ e2) ++ [3]) ++ V1) ++ V2) ++ (V3 ++ (pd ++ rest)) =
          (((((e1 ++ e2) ++ [3]) ++ V1) ++ V2) ++ V3) ++ (pd ++ rest) from by
        simp [List.append_assoc]]
      rw [hv3]
      simp only [Pure.pure, Except.pure]
      simp [List.length_append]

/-- Witness for C10 at fill `#FF0000`, stroke `none`, path data
`M0,0 L10,10 Z`, opacity `1/2`, stroke width `2`. -/
theorem C10_witness :
    (0 ≤ JS.jsRound ((1 / 2 : ℚ) * 100) ∧ JS.jsRound ((1 / 2 : ℚ) * 100) < 2147483648 ∧
      0 ≤ JS.jsRound ((2 : ℚ) * 10) ∧ JS.jsRound ((2 : ℚ) * 10) < 2147483648 ∧
      (Compress.compressPathData "M0,0 L10,10 Z".data).length < 2147483648) ∧
    ((Compress.encodePathSegments
        ⟨"M0,0 L10,10 Z".data, "#FF0000".data, "none".data, some (1 / 2 : ℚ), some (2 : ℚ)⟩).getD
          ((Compress.encodeColor "#FF0000".data).length +
            (Compress.encodeColor "none".data).length) 0 =
        (if (1 / 2 : ℚ) ≠ 1 then 1 else 0) + (if (2 : ℚ) ≠ 0 then 2 else 0) ∧
      ∃ f s,
        Decompress.decodeRecordHead
            (Compress.encodePathSegments
              ⟨"M0,0 L10,10 Z".data, "#FF0000".data, "none".data, some (1 / 2 : ℚ),
                some (2 : ℚ)⟩ ++ []) 0 =
          .ok ⟨f, s,
            (if (1 / 2 : ℚ) ≠ 1 then (JS.jsRound ((1 / 2 : ℚ) * 100) : ℚ) / 100 else 1),
            (if (2 : ℚ) ≠ 0 then (JS.jsRound ((2 : ℚ) * 10) : ℚ) / 10 else 0),
            ((Compress.compressPathData "M0,0 L10,10 Z".data).length : Int),
            (Compress.encodeColor "#FF0000".data).length +
              (Compress.encodeColor "none".data).length + 1 +
              (if (1 / 2 : ℚ) ≠ 1 then
                (Compress.encodeVarInt (JS.jsRound ((1 / 2 : ℚ) * 100))).length else 0) +
              (if (2 : ℚ) ≠ 0 then
                (Compress.encodeVarInt (JS.jsRound ((2 : ℚ) * 10))).length else 0) +
              (Compress.encodeVarInt
                ((Compress.compressPathData "M0,0 L10,10 Z".data).length : Int)).length⟩) :=
  ⟨⟨by with_unfolding_all decide, by with_unfolding_all decide, by with_unfolding_all decide,
    by with_unfolding_all decide, by with_unfolding_all decide⟩,
    C10_flags_and_optional_fields "#FF0000".data "none".data "M0,0 L10,10 Z".data
      (1 / 2 : ℚ) (2 : ℚ) [] (by with_unfolding_all decide) (by with_unfolding_all decide)
      (by with_unfolding_all decide) (by with_unfolding_all decide)
      (by with_unfolding_all decide)⟩

namespace Spikes

/-!
## `src/workingCompressionScripts/spikes/decompressSpikes.js`
Its `decodeVarInt` (lines 15–36) is byte-for-byte the one of decompress.js,
so the shared `decodeVarInt` above is reused, as is the character-reading
loop shape `Decompress.readChars`.
-/

/-- `COLOR_DICT` of decompressSpikes.js (lines 5–12). -/
def COLOR_DICT : List (Nat × List Char) :=
  [(1, "000000".data), (2, "FFFFFF".data), (3, "FF0000".data), (4, "00FF00".data),
   (5, "0000FF".data), (0, "none".data)]

def colorDictGet (n : Nat) : Option (List Char) :=
  (COLOR_DICT.find? (fun p => p.1 = n)).map Prod.snd

/-- `decodeColor` (decompressSpikes.js lines 38–86): dictionary, 254 = RGB
triple, 255 = gradient reference (varint id length, then id characters). -/
def decodeColor (buffer : List Nat) (offset : Nat) : Except String (List Char × Nat) :=
  if buffer.length ≤ offset then
    .error "Buffer overflow when reading color"
  else
    if buffer.getD offset 0 < 254 ∧ (colorDictGet (buffer.getD offset 0)).isSome then
      .ok ((if buffer.getD offset 0 = 0 then "none".data
        else '#' :: (colorDictGet (buffer.getD offset 0)).getD []), 1)
    else if buffer.getD offset 0 = 254 then
      if buffer.length ≤ offset + 3 then
        .error "Buffer overflow when reading RGB color"
      else
        .ok (JS.jsToUpperCase ('#' ::
          (JS.padStart (JS.natToHex (buffer.getD (offset + 1) 0)) 2 '0' ++
           JS.padStart (JS.natToHex (buffer.getD (offset + 2) 0)) 2 '0' ++
           JS.padStart (JS.natToHex (buffer.getD (offset + 3) 0)) 2 '0')), 4)
    else if buffer.getD offset 0 = 255 then do
      let (idLength, idLengthBytes) ← decodeVarInt buffer (offset + 1)
      pure ("url(#".data ++
          Decompress.readChars buffer (offset + 1 + idLengthBytes) idLength.toNat ++ ")".data,
        1 + idLengthBytes + idLength.toNat)
    else
      .error "Unknown color encoding"

/-- `decompressViewBox` (decompressSpikes.js lines 89–108). -/
def decompressViewBox (buffer : List Nat) (offset : Nat) : Except String (List Char × Nat) := do
  let (viewBoxLength, vbLengthBytes) ← decodeVarInt buffer (offset + 1)
  pure (Decompress.readChars buffer (offset + 1 + vbLengthBytes) viewBoxLength.toNat,
    1 + vbLengthBytes + viewBoxLength.toNat)

/-- `decompressPath` (decompressSpikes.js lines 110–159): colors, stroke
width varint scaled by 10, length-prefixed raw path characters; any
internal error is caught and the hard-coded one-byte fallback path is
returned. -/
def decompressPath (buffer : List Nat) (offset : Nat) : List Char × Nat :=
  match (do
    let (fill, fillBytes) ← decodeColor buffer (offset + 1)
    let (stroke, strokeBytes) ← decodeColor buffer (offset + 1 + fillBytes)
    let (strokeWidthRaw, strokeWidthBytes) ←
      decodeVarInt buffer (offset + 1 + fillBytes + strokeBytes)
    let (pathDataLength, pathDataLengthBytes) ←
      decodeVarInt buffer (offset + 1 + fillBytes + strokeBytes + strokeWidthBytes)
    pure (fill, stroke, strokeWidthRaw,
      fillBytes + strokeBytes + strokeWidthBytes + pathDataLengthBytes, pathDataLength)
    : Except String (List Char × List Char × Int × Nat × Int)) with
  | .error _ =>
    ("<path d=\"M 0 0\" fill=\"none\" stroke=\"#FF0000\" stroke-width=\"1\"/>".data, 1)
  | .ok (fill, stroke, strokeWidthRaw, headBytes, pathDataLength) =>
    ("<path d=\"".data ++
        Decompress.readChars buffer (offset + 1 + headBytes) pathDataLength.toNat ++
        "\" fill=\"".data ++ fill ++ "\"".data ++
        (if stroke ≠ "none".data ∧ (strokeWidthRaw : ℚ) / 10 > 0 then
          " stroke=\"".data ++ stroke ++ "\" stroke-width=\"".data ++
            JS.jsToFixed 1 ((strokeWidthRaw : ℚ) / 10) ++ "\"".data
        else []) ++ "/>".data,
      1 + headBytes + pathDataLength.toNat)

/-- The gradient stop loop of `decompressGradient` (decompressSpikes.js
lines 194–209), structural on the remaining stop count. -/
def gradientStopsF : Nat → List Nat → Nat → List (List Char) →
    Except String (List (List Char) × Nat)
  | 0, _, off, acc => .ok (acc, off)
  | i + 1, buffer, off, acc =>
    if buffer.length ≤ off then .ok (acc, off)
    else do
      let (stopOffsetVal, offB) ← decodeVarInt buffer off
      let (color, colorB) ← decodeColor buffer (off + offB)
      gradientStopsF i buffer (off + offB + colorB)
        (acc ++ ["<stop offset=\"".data ++ JS.jsIntToString stopOffsetVal ++
          "%\" stop-color=\"".data ++ color ++ "\"/>".data])

/-- `decompressGradient` (decompressSpikes.js lines 161–225); internal
errors are caught and the hard-coded one-byte fallback gradient is
returned. -/
def decompressGradient (buffer : List Nat) (offset : Nat) : List Char × Nat :=
  match (do
    let (idLength, idLengthBytes) ← decodeVarInt buffer (offset + 1)
    let gradientId := Decompress.readChars buffer (offset + 1 + idLengthBytes) idLength.toNat
    let o1 := offset + 1 + idLengthBytes + idLength.toNat
    let (x1, x1B) ← decodeVarInt buffer o1
    let (y1, y1B) ← decodeVarInt buffer (o1 + x1B)
    let (x2, x2B) ← decodeVarInt buffer (o1 + x1B + y1B)
    let (y2, y2B) ← decodeVarInt buffer (o1 + x1B + y1B + x2B)
    let (stopCount, stopCountB) ← decodeVarInt buffer (o1 + x1B + y1B + x2B + y2B)
    let (stops, o3) ← gradientStopsF stopCount.toNat buffer
      (o1 + x1B + y1B + x2B + y2B + stopCountB) []
    pure ("<linearGradient id=\"".data ++ gradientId ++ "\" x1=\"".data ++
        JS.jsIntToString x1 ++ "%\" y1=\"".data ++ JS.jsIntToString y1 ++
        "%\" x2=\"".data ++ JS.jsIntToString x2 ++ "%\" y2=\"".data ++
        JS.jsIntToString y2 ++ "%\">\n    ".data ++
        List.intercalate "\n    ".data stops ++ "\n  </linearGradient>".data,
      o3 - offset)
    : Except String (List Char × Nat)) with
  | .error _ =>
    (("<linearGradient id=\"fallback\"><stop offset=\"0%\" stop-color=\"#FF0000\"/>" ++
      "<stop offset=\"100%\" stop-color=\"#0000FF\"/></linearGradient>").data, 1)
  | .ok r => r

/-- `createFallbackSVG` (decompressSpikes.js lines 227–241), including the
trailing spaces of the source template literal. -/
def createFallbackSVG : List Char :=
  ("<svg xmlns=\"http://www.w3.org/2000/svg\" viewBox=\"0 0 420 420\">\n" ++
   "  <defs>\n" ++
   "    <linearGradient id=\"fallbackGradient\" x1=\"0%\" y1=\"0%\" x2=\"100%\" y2=\"100%\">\n" ++
   "      <stop offset=\"0%\" stop-color=\"#FF0000\"/>\n" ++
   "      <stop offset=\"100%\" stop-color=\"#0000FF\"/>\n" ++
   "    </linearGradient>\n" ++
   "  </defs>\n" ++
   "  <path d=\"M 210,50 L 250,150 L 350,210 L 250,270 L 210,370 L 170,270 L 70,210 L 170,150 Z\" \n" ++
   "        fill=\"url(#fallbackGradient)\" \n" ++
   "        stroke=\"#000000\" \n" ++
   "        stroke-width=\"0.5\" />\n" ++
   "</svg>").data

/-- The marker-dispatch loop of `decompressSVG` (decompressSpikes.js lines
267–296), carrying `(viewBox, gradients, paths)`.  The fuel strictly
bounds the iteration count (every branch advances the offset by at least
one byte), so the fuel-0 branch is unreachable from the instantiation in
`decompressSVG`.  The `default` branch of the switch logs and performs
`offset++` — it skips the unknown byte and keeps scanning. -/
def decompressLoopF : Nat → List Nat → Nat → List Char → List (List Char) →
    List (List Char) → Except String (List Char × List (List Char) × List (List Char))
  | 0, _, _, vb, gs, ps => .ok (vb, gs, ps)
  | fuel + 1, buffer, offset, vb, gs, ps =>
    if buffer.length ≤ offset then .ok (vb, gs, ps)
    else
      match buffer.getD offset 0 with
      | 0 =>
        match decompressViewBox buffer offset with
        | .error e => .error e
        | .ok (vb', n) => decompressLoopF fuel buffer (offset + n) vb' gs ps
      | 1 =>
        decompressLoopF fuel buffer (offset + (decompressPath buffer offset).2) vb gs
          (ps ++ [(decompressPath buffer offset).1])
      | 2 =>
        decompressLoopF fuel buffer (offset + (decompressGradient buffer offset).2) vb
          (gs ++ [(decompressGradient buffer offset).1]) ps
      | _ => decompressLoopF fuel buffer (offset + 1) vb gs ps

/-- `decompressSVG` (decompressSpikes.js lines 244–327): base64, header,
dispatch loop, fallback when no paths were decoded or an error escaped. -/
def decompressSVG (compressedData : List Char) : List Char :=
  let buffer := JS.bufferFromBase64 compressedData
  match (do
    if buffer.length < 2 then Except.error "Invalid compressed data: too short"
    else do
      let (viewBox, gradients, paths) ←
        decompressLoopF (buffer.length + 1 - 2) buffer 2 "0 0 420 420".data [] []
      pure (if paths.length = 0 then createFallbackSVG
        else
          "<svg xmlns=\"http://www.w3.org/2000/svg\" viewBox=\"".data ++ viewBox ++
            "\">".data ++
            (if 0 < gradients.length then
              "\n  <defs>\n    ".data ++ List.intercalate "\n    ".data gradients ++
                "\n  </defs>\n".data
            else []) ++
            (paths.map (fun p => "\n  ".data ++ p)).flatten ++ "\n</svg>".data)
    : Except String (List Char)) with
  | .ok svg => svg
  | .error _ => createFallbackSVG

end Spikes

namespace Phil

/-!
## The decompression script of `src/workingScripts/workingPhilCompress.js`
(lines 176–564; the file concatenates a compressor and this decompressor).
Its `decodeVarInt`/`decodeSignedVarInt` (lines 199–232) are byte-for-byte
those of decompress.js, so the shared definitions above are reused.
-/

def QUANTIZATION_SCALE : ℚ := 10

/-- `COLOR_DICT` of the Phil decompressor (lines 180–196). -/
def COLOR_DICT : List (Nat × List Char) :=
  [(1, "000000".data), (2, "FFFFFF".data), (3, "808080".data), (4, "0D00FF".data),
   (5, "5858FF".data), (6, "00B7FF".data), (7, "66C9FF".data), (8, "FF0000".data),
   (9, "00FF00".data), (10, "0000FF".data), (11, "FFFF00".data), (12, "00FFFF".data),
   (13, "FF00FF".data), (14, "080055".data), (0, "none".data)]

def colorDictGet (n : Nat) : Option (List Char) :=
  (COLOR_DICT.find? (fun p => p.1 = n)).map Prod.snd

/-- `decodeColor` (lines 234–266): dictionary or 254 = RGB triple. -/
def decodeColor (buffer : List Nat) (offset : Nat) : Except String (List Char × Nat) :=
  if buffer.length ≤ offset then
    .error "Buffer overflow when reading color"
  else
    if buffer.getD offset 0 < 254 ∧ (colorDictGet (buffer.getD offset 0)).isSome then
      .ok ((if buffer.getD offset 0 = 0 then "none".data
        else '#' :: (colorDictGet (buffer.getD offset 0)).getD []), 1)
    else if buffer.getD offset 0 = 254 then
      if buffer.length ≤ offset + 3 then
        .error "Buffer overflow when reading RGB color"
      else
        .ok (JS.jsToUpperCase ('#' ::
          (JS.padStart (JS.natToHex (buffer.getD (offset + 1) 0)) 2 '0' ++
           JS.padStart (JS.natToHex (buffer.getD (offset + 2) 0)) 2 '0' ++
           JS.padStart (JS.natToHex (buffer.getD (offset + 3) 0)) 2 '0')), 4)
    else
      .error "Unknown color encoding"

/-- `decodeFloat` (lines 270–292): opacity = unsigned varint / 100,
coordinates = signed varint / QUANTIZATION_SCALE. -/
def decodeFloat (buffer : List Nat) (offset : Nat) (isOpacity : Bool) :
    Except String (ℚ × Nat) :=
  if buffer.length ≤ offset then
    .error "Buffer overflow when reading float"
  else if isOpacity then do
    let (value, bytesRead) ← decodeVarInt buffer offset
    pure ((value : ℚ) / 100, bytesRead)
  else do
    let (value, bytesRead) ← decodeSignedVarInt buffer offset
    pure ((value : ℚ) / QUANTIZATION_SCALE, bytesRead)

/-- `decompressMetadata` (lines 293–311). -/
def decompressMetadata (buffer : List Nat) (offset : Nat) : Except String (List Char × Nat) := do
  let (viewBoxLength, vbLengthBytes) ← decodeVarInt buffer (offset + 1)
  pure (Decompress.readChars buffer (offset + 1 + vbLengthBytes) viewBoxLength.toNat,
    1 + vbLengthBytes + viewBoxLength.toNat)

/-- The parameter loop of `decodePath` (lines 335–350), structural on the
remaining parameter count; `j` is the running parameter index (a space is
written before every parameter except the first of an `m`/`M` command). -/
def decodeParamsF (cmdChar : Char) : Nat → List Nat → Nat → Nat → List Char →
    Except String (List Char × Nat)
  | 0, _, off, _, acc => .ok (acc, off)
  | rem + 1, buffer, off, j, acc =>
    if buffer.length ≤ off then .ok (acc, off)
    else do
      let (param, paramBytes) ← decodeFloat buffer off false
      decodeParamsF cmdChar rem buffer (off + paramBytes) (j + 1)
        (acc ++ (if 0 < j ∨ cmdChar.toLower ≠ 'm' then [' '] else []) ++ JS.jsToFixed 1 param)

/-- The command loop of `decodePath` (lines 323–351), structural on the
remaining command count. -/
def decodeCmdsF : Nat → List Nat → Nat → List Char → Except String (List Char × Nat)
  | 0, _, off, acc => .ok (acc, off)
  | rem + 1, buffer, off, acc =>
    if buffer.length ≤ off then .ok (acc, off)
    else do
      let cmdChar := Char.ofNat (buffer.getD off 0)
      let (paramCount, paramCountBytes) ← decodeVarInt buffer (off + 1)
      let (acc', off') ← decodeParamsF cmdChar paramCount.toNat buffer
        (off + 1 + paramCountBytes) 0 (acc ++ [cmdChar])
      decodeCmdsF rem buffer off' acc'

/-- `decodePath` (lines 314–353). -/
def decodePath (buffer : List Nat) (offset : Nat) : Except String (List Char × Nat) := do
  let (cmdCount, cmdCountBytes) ← decodeVarInt buffer offset
  let (pathData, off') ← decodeCmdsF cmdCount.toNat buffer (offset + cmdCountBytes) []
  pure (pathData, off' - offset)

/-- `decompressPath` (lines 356–397). -/
def decompressPath (buffer : List Nat) (offset : Nat) : Except String (List Char × Nat) := do
  let (fill, fillBytes) ← decodeColor buffer (offset + 1)
  let (stroke, strokeBytes) ← decodeColor buffer (offset + 1 + fillBytes)
  let (strokeWidth, strokeWidthBytes) ←
    decodeFloat buffer (offset + 1 + fillBytes + strokeBytes) false
  let (opacity, opacityBytes) ←
    decodeFloat buffer (offset + 1 + fillBytes + strokeBytes + strokeWidthBytes) true
  let (pathData, pathBytes) ←
    decodePath buffer (offset + 1 + fillBytes + strokeBytes + strokeWidthBytes + opacityBytes)
  pure ("<path d=\"".data ++ pathData ++ "\" fill=\"".data ++ fill ++ "\"".data ++
      (if opacity < 99 / 100 then
        " opacity=\"".data ++ JS.jsToFixed 2 opacity ++ "\"".data else []) ++
      (if stroke ≠ "none".data ∧ strokeWidth > 0 then
        " stroke=\"".data ++ stroke ++ "\" stroke-width=\"".data ++
          JS.jsToFixed 1 strokeWidth ++ "\"".data
      else []) ++ "/>".data,
    1 + fillBytes + strokeBytes + strokeWidthBytes + opacityBytes + pathBytes)

/-- The marker-dispatch loop of the Phil `decompressSVG` (lines 422–445)
together with the `try { … } catch { /* continue with what we have */ }`
that wraps it (lines 421–450): a thrown record error exits the loop
keeping the state accumulated so far.  The state is `(viewBox, paths)`.
The fuel strictly bounds the iteration count (both record branches
advance the offset by at least one and the default branch ends the loop),
so the fuel-0 branch is unreachable from the `buffer.length + 1 - offset`
instantiation.  The `default` branch of the switch (lines 440–444) sets
`offset = buffer.length` — decoding halts on an unknown marker. -/
def decompressLoopF : Nat → List Nat → Nat → List Char → List (List Char) →
    List Char × List (List Char)
  | 0, _, _, vb, ps => (vb, ps)
  | fuel + 1, buffer, offset, vb, ps =>
    if buffer.length ≤ offset then (vb, ps)
    else
      match buffer.getD offset 0 with
      | 0 =>
        match decompressMetadata buffer offset with
        | .error _ => (vb, ps)
        | .ok (vb', n) => decompressLoopF fuel buffer (offset + n) vb' ps
      | 1 =>
        match decompressPath buffer offset with
        | .error _ => (vb, ps)
        | .ok (el, n) => decompressLoopF fuel buffer (offset + n) vb (ps ++ [el])
      | _ => decompressLoopF fuel buffer buffer.length vb ps

end Phil

namespace Bg

/-!
## `src/workingCompressionScripts/Bg/decompressBg.js`
Its `decodeVarInt`/`decodeSignedVarInt` (lines 30–63) are byte-for-byte
those of decompress.js, so the shared definitions above are reused.
-/

def TARGET_SIZE : Nat := 420

def QUANTIZATION_SCALE : ℚ := 1

/-- `COLOR_DICT` of decompressBg.js (lines 9–28). -/
def COLOR_DICT : List (Nat × List Char) :=
  [(1, "000000".data), (2, "FFFFFF".data), (3, "808080".data), (4, "FF0000".data),
   (5, "00FF00".data), (6, "0000FF".data), (7, "FFFF00".data), (8, "00FFFF".data),
   (9, "FF00FF".data), (10, "C0C0C0".data), (11, "E8A852".data), (12, "294D7A".data),
   (13, "D67D3E".data), (14, "A654AD".data), (15, "66CCFF".data), (16, "FFDB99".data),
   (0, "none".data)]

def colorDictGet (n : Nat) : Option (List Char) :=
  (COLOR_DICT.find? (fun p => p.1 = n)).map Prod.snd

/-- `decodeColor` (decompressBg.js lines 65–120): dictionary, 254 = RGB
triple, 255 = gradient reference read as the maximal run of printable
ASCII bytes (32–126) after the marker. -/
def decodeColor (buffer : List Nat) (offset : Nat) : Except String (List Char × Nat) :=
  if buffer.length ≤ offset then
    .error "Buffer overflow when reading color"
  else
    if buffer.getD offset 0 < 254 ∧ (colorDictGet (buffer.getD offset 0)).isSome then
      .ok ((if buffer.getD offset 0 = 0 then "none".data
        else '#' :: (colorDictGet (buffer.getD offset 0)).getD []), 1)
    else if buffer.getD offset 0 = 254 then
      if buffer.length ≤ offset + 3 then
        .error "Buffer overflow when reading RGB color"
      else
        .ok (JS.jsToUpperCase ('#' ::
          (JS.padStart (JS.natToHex (buffer.getD (offset + 1) 0)) 2 '0' ++
           JS.padStart (JS.natToHex (buffer.getD (offset + 2) 0)) 2 '0' ++
           JS.padStart (JS.natToHex (buffer.getD (offset + 3) 0)) 2 '0')), 4)
    else if buffer.getD offset 0 = 255 then
      .ok ("url(#".data ++
          ((buffer.drop (offset + 1)).takeWhile
            (fun b => decide (32 ≤ b) && decide (b ≤ 126))).map Char.ofNat ++ ")".data,
        1 + ((buffer.drop (offset + 1)).takeWhile
          (fun b => decide (32 ≤ b) && decide (b ≤ 126))).length)
    else
      .error "Unknown color encoding"

/-- `decodeFloat` (decompressBg.js lines 122–144): opacity = unsigned
varint / 1000, coordinates = (signed varint / 10) / QUANTIZATION_SCALE. -/
def decodeFloat (buffer : List Nat) (offset : Nat) (isOpacity : Bool) :
    Except String (ℚ × Nat) :=
  if buffer.length ≤ offset then
    .error "Buffer overflow when reading float"
  else if isOpacity then do
    let (value, bytesRead) ← decodeVarInt buffer offset
    pure ((value : ℚ) / 1000, bytesRead)
  else do
    let (value, bytesRead) ← decodeSignedVarInt buffer offset
    pure (((value : ℚ) / 10) / QUANTIZATION_SCALE, bytesRead)

/-- `decompressMetadata` (decompressBg.js lines 146–164). -/
def decompressMetadata (buffer : List Nat) (offset : Nat) : Except String (List Char × Nat) := do
  let (viewBoxLength, vbLengthBytes) ← decodeVarInt buffer (offset + 1)
  pure (Decompress.readChars buffer (offset + 1 + vbLengthBytes) viewBoxLength.toNat,
    1 + vbLengthBytes + viewBoxLength.toNat)

/-- `decompressRect` (decompressBg.js lines 167–196). -/
def decompressRect (buffer : List Nat) (offset : Nat) : Except String (List Char × Nat) := do
  let (fill, fillBytes) ← decodeColor buffer (offset + 1)
  let (x, xBytes) ← decodeFloat buffer (offset + 1 + fillBytes) false
  let (y, yBytes) ← decodeFloat buffer (offset + 1 + fillBytes + xBytes) false
  let (width, widthBytes) ← decodeFloat buffer (offset + 1 + fillBytes + xBytes + yBytes) false
  let (height, heightBytes) ←
    decodeFloat buffer (offset + 1 + fillBytes + xBytes + yBytes + widthBytes) false
  pure ("<rect x=\"".data ++ JS.jsToFixed 2 x ++ "\" y=\"".data ++ JS.jsToFixed 2 y ++
      "\" width=\"".data ++ JS.jsToFixed 2 width ++ "\" height=\"".data ++
      JS.jsToFixed 2 height ++ "\" fill=\"".data ++ fill ++ "\"/>".data,
    1 + fillBytes + xBytes + yBytes + widthBytes + heightBytes)

/-- The per-circle loop of `decompressCircles` (decompressBg.js lines
214–256), structural on the remaining count.  The per-circle
`try { … } catch { break }` keeps the offset advancement already made
inside the failed iteration, which the stepwise matches reproduce. -/
def circlesLoopF (fill : List Char) : Nat → List Nat → Nat → Bool → ℚ × ℚ × ℚ →
    List (List Char) → List (List Char) × Nat
  | 0, _, off, _, _, acc => (acc, off)
  | i + 1, buffer, off, first, (pcx, pcy, pr), acc =>
    if buffer.length ≤ off then (acc, off)
    else
      match decodeFloat buffer off true with
      | .error _ => (acc, off)
      | .ok (opacity, ob) =>
        match decodeFloat buffer (off + ob) false with
        | .error _ => (acc, off + ob)
        | .ok (deltaCx, cxb) =>
          match decodeFloat buffer (off + ob + cxb) false with
          | .error _ => (acc, off + ob + cxb)
          | .ok (deltaCy, cyb) =>
            match decodeFloat buffer (off + ob + cxb + cyb) false with
            | .error _ => (acc, off + ob + cxb + cyb)
            | .ok (deltaR, rb) =>
              circlesLoopF fill i buffer (off + ob + cxb + cyb + rb) false
                ((if first then deltaCx else pcx + deltaCx),
                 (if first then deltaCy else pcy + deltaCy),
                 (if first then deltaR else pr + deltaR))
                (acc ++ ["<circle cx=\"".data ++
                  JS.jsToFixed 2 (if first then deltaCx else pcx + deltaCx) ++
                  "\" cy=\"".data ++
                  JS.jsToFixed 2 (if first then deltaCy else pcy + deltaCy) ++
                  "\" r=\"".data ++
                  JS.jsToFixed 2 (if first then deltaR else pr + deltaR) ++
                  "\" fill=\"".data ++ fill ++ "\"".data ++
                  (if opacity < 99 / 100 then
                    " opacity=\"".data ++ JS.jsToFixed 3 opacity ++ "\"".data else []) ++
                  "/>".data])

/-- `decompressCircles` (decompressBg.js lines 198–270); the `version`
parameter of the source is unused by its body.  The outer catch returns
`([], 0)`. -/
def decompressCircles (buffer : List Nat) (offset : Nat) : List (List Char) × Nat :=
  match (do
    let (fill, fillBytes) ← decodeColor buffer (offset + 1)
    let (circleCount, countBytes) ← decodeVarInt buffer (offset + 1 + fillBytes)
    pure (fill, fillBytes, circleCount, countBytes)
    : Except String (List Char × Nat × Int × Nat)) with
  | .error _ => ([], 0)
  | .ok (fill, fillBytes, circleCount, countBytes) =>
    let (circles, finalOffset) := circlesLoopF fill circleCount.toNat buffer
      (offset + 1 + fillBytes + countBytes) true (0, 0, 0) []
    (circles, finalOffset - offset)

/-- The gradient stop loop of `decompressGradient` (decompressBg.js lines
297–319), structural on the remaining stop count; a decode error inside
it propagates to the enclosing catch. -/
def gradientStopsF : Nat → List Nat → Nat → List (List Char) →
    Except String (List (List Char) × Nat)
  | 0, _, off, acc => .ok (acc, off)
  | i + 1, buffer, off, acc =>
    if buffer.length ≤ off then .ok (acc, off)
    else do
      let (stopOffset, offB) ← decodeFloat buffer off false
      let (opacity, opB) ← decodeFloat buffer (off + offB) true
      let (color, colorB) ← decodeColor buffer (off + offB + opB)
      gradientStopsF i buffer (off + offB + opB + colorB)
        (acc ++ ["<stop offset=\"".data ++ JS.jsToFixed 0 (stopOffset * 100) ++
          "%\" stop-color=\"".data ++ color ++ "\"".data ++
          (if opacity < 99 / 100 then
            " stop-opacity=\"".data ++ JS.jsToFixed 3 opacity ++ "\"".data else []) ++
          "/>".data])

/-- `createDefaultGalaxyGradient` (decompressBg.js lines 342–350). -/
def createDefaultGalaxyGradient : List Char :=
  ("<defs>\n" ++
   "    <radialGradient id=\"coreGlow\">\n" ++
   "      <stop offset=\"0%\" stop-color=\"#FFA500\" stop-opacity=\"1\"/>\n" ++
   "      <stop offset=\"50%\" stop-color=\"#E8A852\" stop-opacity=\"0.8\"/>\n" ++
   "      <stop offset=\"100%\" stop-color=\"#E8A852\" stop-opacity=\"0\"/>\n" ++
   "    </radialGradient>\n" ++
   "  </defs>").data

/-- `decompressGradient` (decompressBg.js lines 272–340); the catch
returns the default galaxy gradient with `bytesRead` 0. -/
def decompressGradient (buffer : List Nat) (offset : Nat) : List Char × Nat :=
  match (do
    let (idLength, idLengthBytes) ← decodeVarInt buffer (offset + 1)
    let gradientId := Decompress.readChars buffer (offset + 1 + idLengthBytes) idLength.toNat
    let o1 := offset + 1 + idLengthBytes + idLength.toNat
    let (gradientTypeCode, typeBytes) ← decodeVarInt buffer o1
    let (stopCount, stopCountBytes) ← decodeVarInt buffer (o1 + typeBytes)
    let (stops, o3) ← gradientStopsF stopCount.toNat buffer (o1 + typeBytes + stopCountBytes) []
    pure ("<defs>\n  <".data ++
        (if gradientTypeCode = 1 then "radialGradient".data else "linearGradient".data) ++
        " id=\"".data ++ gradientId ++ "\">\n    ".data ++
        List.intercalate "\n    ".data stops ++ "\n  </".data ++
        (if gradientTypeCode = 1 then "radialGradient".data else "linearGradient".data) ++
        ">\n</defs>".data,
      o3 - offset)
    : Except String (List Char × Nat)) with
  | .error _ => (createDefaultGalaxyGradient, 0)
  | .ok r => r

/-- The `skip to the next marker` inner loop of the dispatch loop
(decompressBg.js lines 470–474 and 487–491); the fuel strictly bounds the
scan length. -/
def skipToMarkerF : Nat → List Nat → Nat → Nat
  | 0, _, off => off
  | f + 1, buffer, off =>
    if off < buffer.length ∧ buffer.getD off 0 ≠ 0 ∧ buffer.getD off 0 ≠ 1 ∧
        buffer.getD off 0 ≠ 2 ∧ buffer.getD off 0 ≠ 3 then
      skipToMarkerF f buffer (off + 1)
    else off

def skipToMarker (buffer : List Nat) (off : Nat) : Nat :=
  skipToMarkerF (buffer.length + 1 - off) buffer off

/-- The marker-dispatch loop of the Bg `decompressSVG` (decompressBg.js
lines 443–500) together with the `try { … } catch { /* continue with what
we have */ }` wrapping it: a thrown record error exits the loop keeping
the accumulated state `(viewBox, rect, circles, defs)`.  The fuel
strictly bounds the iteration count.  The `default` branch (lines
495–499) sets `offset = buffer.length` — decoding halts on an unknown
marker.  (The galaxy post-processing after the loop uses `Math.random`
and is outside this model; only the loop is embedded.) -/
def decompressLoopF : Nat → List Nat → Nat →
    List Char × List Char × List (List Char) × List Char →
    List Char × List Char × List (List Char) × List Char
  | 0, _, _, st => st
  | fuel + 1, buffer, offset, (vb, rect, circles, defs) =>
    if buffer.length ≤ offset then (vb, rect, circles, defs)
    else
      match buffer.getD offset 0 with
      | 0 =>
        match decompressMetadata buffer offset with
        | .error _ => (vb, rect, circles, defs)
        | .ok (vb', n) => decompressLoopF fuel buffer (offset + n) (vb', rect, circles, defs)
      | 1 =>
        match decompressRect buffer offset with
        | .error _ => (vb, rect, circles, defs)
        | .ok (el, n) => decompressLoopF fuel buffer (offset + n) (vb, el, circles, defs)
      | 2 =>
        decompressLoopF fuel buffer
          (if 0 < (decompressCircles buffer offset).2 then
            offset + (decompressCircles buffer offset).2
          else skipToMarker buffer (offset + 1))
          (vb, rect,
            (if 0 < (decompressCircles buffer offset).1.length then
              circles ++ (decompressCircles buffer offset).1 else circles), defs)
      | 3 =>
        decompressLoopF fuel buffer
          (if 0 < (decompressGradient buffer offset).2 then
            offset + (decompressGradient buffer offset).2
          else skipToMarker buffer (offset + 1))
          (vb, rect, circles, (decompressGradient buffer offset).1)
      | _ => decompressLoopF fuel buffer buffer.length (vb, rect, circles, defs)

end Bg

/-- Once the offset reaches the end of the buffer, the Phil dispatch loop
returns its state unchanged, for any fuel. -/
theorem philLoopF_end (f : Nat) (buffer : List Nat) (off : Nat) (vb : List Char)
    (ps : List (List Char)) (h : buffer.length ≤ off) :
    Phil.decompressLoopF f buffer off vb ps = (vb, ps) := by
  cases f with
  | zero => rfl
  | succ m =>
    simp only [Phil.decompressLoopF]
    rw [if_pos h]

/-- Once the offset reaches the end of the buffer, the Bg dispatch loop
returns its state unchanged, for any fuel. -/
theorem bgLoopF_end (f : Nat) (buffer : List Nat) (off : Nat)
    (st : List Char × List Char × List (List Char) × List Char) (h : buffer.length ≤ off) :
    Bg.decompressLoopF f buffer off st = st := by
  obtain ⟨vb, rect, circles, defs⟩ := st
  cases f with
  | zero => rfl
  | succ m =>
    simp only [Bg.decompressLoopF]
    rw [if_pos h]

/-- C8, refuted at a concrete input.  The claim asserts that EVERY
decoder's dispatch loop halts on an unknown marker byte, "including the
spikes decoder".  The spikes decoder instead skips it: its `default`
branch performs `offset++` and keeps scanning.  On the document
`AQEJAQMAAARNMCAw` (bytes `[1,1,9,1,3,0,0,4,77,48,32,48]`: header, then
the unknown marker 9, then a path record) the spikes `decompressSVG`
returns an SVG containing the path record decoded from BEYOND the
unknown byte; a halting decoder would have seen zero paths and returned
`createFallbackSVG`. -/
theorem C8_counterexample :
    Spikes.decompressSVG (JS.bufferToBase64 [1, 1, 9, 1, 3, 0, 0, 4, 77, 48, 32, 48]) =
      ("<svg xmlns=\"http://www.w3.org/2000/svg\" viewBox=\"0 0 420 420\">\n" ++
        "  <path d=\"M0 0\" fill=\"#FF0000\"/>\n</svg>").data ∧
    ("<svg xmlns=\"http://www.w3.org/2000/svg\" viewBox=\"0 0 420 420\">\n" ++
        "  <path d=\"M0 0\" fill=\"#FF0000\"/>\n</svg>").data ≠ Spikes.createFallbackSVG := by
  refine ⟨by with_unfolding_all rfl, by decide⟩

/-- C8, amended.  On a marker byte matching no known record type, the Phil
dispatch loop (markers 0, 1) and the Bg dispatch loop (markers 0–3) halt:
the iteration sets the offset to the buffer length and the loop exits
with the state accumulated so far.  The spikes dispatch loop (markers
0–2) does NOT halt: its default branch skips the unknown byte and
continues scanning at the next offset. -/
theorem C8_amended_dispatch :
    (∀ (fuel : Nat) (buffer : List Nat) (offset : Nat) (vb : List Char)
      (gs ps : List (List Char)),
      offset < buffer.length → buffer.getD offset 0 ≠ 0 → buffer.getD offset 0 ≠ 1 →
      buffer.getD offset 0 ≠ 2 →
      Spikes.decompressLoopF (fuel + 1) buffer offset vb gs ps =
        Spikes.decompressLoopF fuel buffer (offset + 1) vb gs ps) ∧
    (∀ (fuel : Nat) (buffer : List Nat) (offset : Nat) (vb : List Char)
      (ps : List (List Char)),
      offset < buffer.length → buffer.getD offset 0 ≠ 0 → buffer.getD offset 0 ≠ 1 →
      Phil.decompressLoopF (fuel + 1) buffer offset vb ps = (vb, ps)) ∧
    (∀ (fuel : Nat) (buffer : List Nat) (offset : Nat)
      (st : List Char × List Char × List (List Char) × List Char),
      offset < buffer.length → buffer.getD offset 0 ≠ 0 → buffer.getD offset 0 ≠ 1 →
      buffer.getD offset 0 ≠ 2 → buffer.getD offset 0 ≠ 3 →
      Bg.decompressLoopF (fuel + 1) buffer offset st = st) := by
  refine ⟨?_, ?_, ?_⟩
  · intro fuel buffer offset vb gs ps hlt h0 h1 h2
    simp only [Spikes.decompressLoopF]
    rw [if_neg (by omega)]
  · intro fuel buffer offset vb ps hlt h0 h1
    simp only [Phil.decompressLoopF]
    rw [if_neg (by omega)]
    exact philLoopF_end fuel buffer buffer.length vb ps (Nat.le_refl _)
  · intro fuel buffer offset st hlt h0 h1 h2 h3
    obtain ⟨vb, rect, circles, defs⟩ := st
    simp only [Bg.decompressLoopF]
    rw [if_neg (by omega)]
    exact bgLoopF_end fuel buffer buffer.length (vb, rect, circles, defs) (Nat.le_refl _)

/-- Witness for C8 at the one-byte buffer `[9]`, offset 0, fuel 0. -/
theorem C8_witness :
    ((0 : Nat) < [(9 : Nat)].length ∧ ([(9 : Nat)].getD 0 0 ≠ 0 ∧ [(9 : Nat)].getD 0 0 ≠ 1 ∧
      [(9 : Nat)].getD 0 0 ≠ 2 ∧ [(9 : Nat)].getD 0 0 ≠ 3)) ∧
    Spikes.decompressLoopF 1 [9] 0 "0 0 420 420".data [] [] =
      Spikes.decompressLoopF 0 [9] (0 + 1) "0 0 420 420".data [] [] ∧
    Phil.decompressLoopF 1 [9] 0 "0 0 420 420".data [] = ("0 0 420 420".data, []) ∧
    Bg.decompressLoopF 1 [9] 0 ("0 0 420 420".data, [], [], []) =
      ("0 0 420 420".data, [], [], []) :=
  ⟨⟨by decide, by decide, by decide, by decide, by decide⟩,
    C8_amended_dispatch.1 0 [9] 0 "0 0 420 420".data [] [] (by decide) (by decide)
      (by decide) (by decide),
    C8_amended_dispatch.2.1 0 [9] 0 "0 0 420 420".data [] (by decide) (by decide) (by decide),
    C8_amended_dispatch.2.2 0 [9] 0 ("0 0 420 420".data, [], [], []) (by decide) (by decide)
      (by decide) (by decide) (by decide)⟩
